import Mathlib

/-!
# dns.sql: a shallow embedding of the virtual tables and resolvers

The development follows the Go sources `resolver.go` (the `dns` and `search`
virtual tables) and `pkg/resolvers` (the classic and DNS-over-HTTPS resolvers).

Conventions of the embedding:

* a Go `string` is a Lean `String`; the only bytes the code inspects are the
  ASCII characters `.` and `\`, which UTF-8 never uses inside a longer sequence;
* a Go `int` is a Lean `Int` (the counters below are bounded by the number of
  calls made, far from the machine range);
* a Go `error` is a value of `Error`; a `nil` error is `none`;
* a run-time panic (an index out of range) is the result `Run.panic`;
* code outside the repository (the `miekg/dns` helpers, `net/url`, the network)
  is taken as a parameter, so every theorem holds for any behaviour of it.
-/

namespace DnsSql

/-! ## Errors and results -/

/-- Go error values built by the code under study. -/
inductive Error where
  /-- `sqlite.Error(code, msg)` -/
  | sqlite (code : Nat) (msg : String)
  /-- `errors.Errorf(format, args...)` and `fmt.Errorf(format, args...)` -/
  | errorf (format : String) (args : List String)
  /-- `errors.Wrapf(cause, format, args...)` -/
  | wrapf (cause : Error) (format : String) (args : List String)
  /-- an error value produced outside the repository (parser, network, file system) -/
  | foreign (msg : String)
  deriving DecidableEq

/-- Outcome of running a Go function that may panic or may fail to return. -/
inductive Run (α : Type) where
  /-- normal return -/
  | ret (a : α)
  /-- run-time panic -/
  | panic (msg : String)
  /-- the recursion budget of the model was used up before the call returned -/
  | diverge
  deriving DecidableEq

/-- `SQLITE_CONSTRAINT` result code. -/
def SQLITE_CONSTRAINT : Nat := 19

/-- `SQLITE_INDEX_CONSTRAINT_EQ` operator code. -/
def INDEX_CONSTRAINT_EQ : Nat := 2

/-- A `sqlite.Value`, seen through the two accessors the code calls. -/
structure Value where
  /-- result of `Text()` -/
  Text : String
  /-- result of `Int()` -/
  Int : Int
  deriving DecidableEq

/-! ## Columns -/

/-- name of the resource / domain to query for -/
def ColumnDomain : Int := 0
/-- the response section where this resource record appears -/
def ColumnSection : Int := 1
/-- the DNS class to query for (defaults to IN) -/
def ColumnClass : Int := 2
/-- the DNS Record Resource type (defaults to A) -/
def ColumnType : Int := 3
/-- TTL in seconds -/
def ColumnTTL : Int := 4
/-- the nameserver to contact or the one that responded to the query -/
def ColumnNameserver : Int := 5
/-- JSON encoded resource data specific to the type -/
def ColumnData : Int := 6

/-- user-provided partial domain -/
def ColumnPartial : Int := 0
/-- user-provided ndots value -/
def ColumnNdots : Int := 1
/-- resolved FQDN from search-list -/
def ColumnFqdn : Int := 2

/-! ## The `miekg/dns` library, as far as the code calls it -/

/-- The `dns.ClientConfig` fields read from a resolv.conf file. -/
structure ClientConfig where
  Servers : List String
  Search : List String
  Ndots : Int
  deriving DecidableEq

/-- The functions and tables of `github.com/miekg/dns` used by the virtual tables.
`ClientConfigFromFile` stands for the content of the file system at the time of the call. -/
structure DnsLib where
  IsFqdn : String → Bool
  Fqdn : String → String
  CountLabel : String → Int
  ClientConfigFromFile : String → Except Error ClientConfig
  StringToType : String → Nat
  StringToClass : String → Nat
  TypeToString : Nat → String
  ClassToString : Nat → String

/-- Reference model of `dns.IsFqdn`: the name ends in a dot that is not escaped. -/
def dns.IsFqdn (s : String) : Bool :=
  match s.data.reverse with
  | [] => false
  | c :: rest =>
    if c != '.' then false
    else
      match rest with
      | [] => true
      | d :: _ =>
        if d != '\\' then true
        else
          let n := (rest.takeWhile (fun x => x == '\\')).length
          let w := match rest.dropWhile (fun x => x == '\\') with
            | [] => 1
            | r :: _ => r.utf8Size
          (n + w) % 2 != 0

/-- Reference model of `dns.Fqdn`. -/
def dns.Fqdn (s : String) : String :=
  if dns.IsFqdn s then s else s ++ "."

/-- Number of backslashes that immediately precede position `i`. -/
def dns.escapes (s : List Char) (i : Nat) : Nat :=
  ((s.take i).reverse.takeWhile (fun x => x == '\\')).length

/-- The scanning loop of `dns.NextLabel`, from position `i`. -/
def dns.NextLabel.loop (s : List Char) : Nat → Nat → Nat × Bool
  | 0, i => (i + 1, true)
  | fuel + 1, i =>
    if i + 1 < s.length then
      if s.getD i ' ' != '.' then dns.NextLabel.loop s fuel (i + 1)
      else
        let j : Int := (i : Int) - 1 - (dns.escapes s i : Int)
        if (j - (i : Int)).tmod 2 == 0 then dns.NextLabel.loop s fuel (i + 1)
        else (i + 1, false)
    else (i + 1, true)

/-- Reference model of `dns.NextLabel` (positions count characters). -/
def dns.NextLabel (s : String) (offset : Nat) : Nat × Bool :=
  if s.data = [] then (0, true) else dns.NextLabel.loop s.data s.data.length offset

/-- The counting loop of `dns.CountLabel`. -/
def dns.CountLabel.loop (s : String) : Nat → Nat → Int → Int
  | 0, _, labels => labels
  | fuel + 1, off, labels =>
    if (dns.NextLabel s off).2 then labels + 1
    else dns.CountLabel.loop s fuel (dns.NextLabel s off).1 (labels + 1)

/-- Reference model of `dns.CountLabel`. -/
def dns.CountLabel (s : String) : Int :=
  if s = "." then 0 else dns.CountLabel.loop s (s.data.length + 1) 0 0

/-- Entries of `dns.StringToType` used in the examples; a missing key reads as 0. -/
def dns.StringToType (s : String) : Nat :=
  if s = "A" then 1 else if s = "NS" then 2 else if s = "CNAME" then 5
  else if s = "MX" then 15 else if s = "TXT" then 16 else if s = "AAAA" then 28 else 0

/-- Entries of `dns.StringToClass` used in the examples; a missing key reads as 0. -/
def dns.StringToClass (s : String) : Nat :=
  if s = "IN" then 1 else if s = "CH" then 3 else 0

/-- Entries of `dns.TypeToString` used in the examples. -/
def dns.TypeToString (t : Nat) : String :=
  if t = 1 then "A" else if t = 2 then "NS" else if t = 5 then "CNAME"
  else if t = 15 then "MX" else if t = 16 then "TXT" else if t = 28 then "AAAA" else ""

/-- Entries of `dns.ClassToString` used in the examples. -/
def dns.ClassToString (c : Nat) : String :=
  if c = 1 then "IN" else if c = 3 then "CH" else ""

/-- The reference library on a machine whose resolv.conf reads as `config`. -/
def dns.lib (config : Except Error ClientConfig) : DnsLib where
  IsFqdn := dns.IsFqdn
  Fqdn := dns.Fqdn
  CountLabel := dns.CountLabel
  ClientConfigFromFile := fun _ => config
  StringToType := dns.StringToType
  StringToClass := dns.StringToClass
  TypeToString := dns.TypeToString
  ClassToString := dns.ClassToString

/-! ## The `search` virtual table -/

/-- SearchListCursor implements sqlite.VirtualCursor for SearchList(). -/
structure SearchListCursor where
  pos : Int
  partial_ : String
  ndots : Int
  fqdn : List String
  deriving DecidableEq

/-- The cursor returned by `SearchListTable.Open`: `&SearchListCursor{}`. -/
def SearchListTable.Open : SearchListCursor :=
  { pos := 0, partial_ := "", ndots := 0, fqdn := [] }

/-- `SearchListCursor.Filter`: the cursor after the call and the returned error. -/
def SearchListCursor.Filter (lib : DnsLib) (cur : SearchListCursor) (values : List Value) :
    Run (SearchListCursor × Option Error) :=
  match values with
  | [] => .panic "index out of range [0] with length 0"
  | v0 :: rest =>
    let part := v0.Text
    let ndots : Int := match rest with
      | [] => 1
      | v1 :: _ => v1.Int
    let cur := { cur with pos := 0, partial_ := part, ndots := ndots }
    -- if this domain is already fully qualified, no append needed.
    if lib.IsFqdn part then
      .ret ({ cur with fqdn := [part] }, none)
    else
      -- fetch search list from system configuration
      match lib.ClientConfigFromFile "/etc/resolv.conf" with
      | .error err => .ret (cur, some (.wrapf err "failed to read system configuration" []))
      | .ok config =>
        let searchList := config.Search
        let fq := lib.Fqdn part
        -- if name has enough dots, try that first
        let cur := if lib.CountLabel part > ndots then { cur with fqdn := cur.fqdn ++ [fq] } else cur
        let cur := searchList.foldl (fun c s => { c with fqdn := c.fqdn ++ [lib.Fqdn (fq ++ s)] }) cur
        let cur := if lib.CountLabel part ≤ ndots then { cur with fqdn := cur.fqdn ++ [fq] } else cur
        .ret (cur, none)

/-- `SearchListCursor.Next` -/
def SearchListCursor.Next (cur : SearchListCursor) : SearchListCursor :=
  { cur with pos := cur.pos + 1 }

/-- `SearchListCursor.Eof` -/
def SearchListCursor.Eof (cur : SearchListCursor) : Bool :=
  decide (cur.pos ≥ (cur.fqdn.length : Int))


/-! ## `encoding/base64` -/

/-- The standard alphabet of RFC 4648. -/
def base64.encodeStd : List Char :=
  "ABCDEFGHIJKLMNOPQRSTUVWXYZabcdefghijklmnopqrstuvwxyz0123456789+/".data

/-- The URL-safe alphabet of RFC 4648. -/
def base64.encodeURL : List Char :=
  "ABCDEFGHIJKLMNOPQRSTUVWXYZabcdefghijklmnopqrstuvwxyz0123456789-_".data

/-- `Encoding.Encode`: three bytes become four characters; `pad` is the padding
character, absent for the raw encodings. -/
def base64.Encode (alphabet : List Char) (pad : Option Char) : List Nat → List Char
  | [] => []
  | [a] =>
    let val := a * 65536
    [alphabet.getD (val / 262144 % 64) 'A', alphabet.getD (val / 4096 % 64) 'A']
      ++ (match pad with
          | some p => [p, p]
          | none => [])
  | [a, b] =>
    let val := a * 65536 + b * 256
    [alphabet.getD (val / 262144 % 64) 'A', alphabet.getD (val / 4096 % 64) 'A',
      alphabet.getD (val / 64 % 64) 'A']
      ++ (match pad with
          | some p => [p]
          | none => [])
  | a :: b :: c :: rest =>
    let val := a * 65536 + b * 256 + c
    alphabet.getD (val / 262144 % 64) 'A' :: alphabet.getD (val / 4096 % 64) 'A' ::
      alphabet.getD (val / 64 % 64) 'A' :: alphabet.getD (val % 64) 'A' ::
      base64.Encode alphabet pad rest

/-- `base64.StdEncoding.EncodeToString` -/
def base64.StdEncoding.EncodeToString (src : List Nat) : String :=
  String.mk (base64.Encode base64.encodeStd (some '=') src)

/-- `base64.RawURLEncoding.EncodeToString` -/
def base64.RawURLEncoding.EncodeToString (src : List Nat) : String :=
  String.mk (base64.Encode base64.encodeURL none src)

/-- The decode map of the standard encoding: the index of a character of the alphabet. -/
def base64.decodeMap (c : Char) : Option Nat :=
  match base64.encodeStd.indexOf c with
  | n => if n < 64 then some n else none

/-- Skip over newlines. -/
def base64.skipNewlines : List Char → List Char
  | [] => []
  | c :: cs => if c == '\n' || c == '\r' then base64.skipNewlines cs else c :: cs

/-- Result of `decodeQuantum`: the unread input, the bytes decoded, and whether the
input was found corrupt. -/
structure base64.Quantum where
  rest : List Char
  bytes : List Nat
  corrupt : Bool
  deriving DecidableEq

/-- Convert `dlen` 6-bit values (held in `dbuf`) into `dlen - 1` bytes. -/
def base64.Quantum.convert (dbuf : List Nat) (dlen : Nat) : List Nat :=
  let val := dbuf.getD 0 0 * 262144 + dbuf.getD 1 0 * 4096 + dbuf.getD 2 0 * 64 + dbuf.getD 3 0
  ([val / 65536 % 256, val / 256 % 256, val % 256]).take (dlen - 1)

/-- `Encoding.decodeQuantum` of the standard (padded, non-strict) encoding;
`dbuf` holds the values read so far. -/
def base64.decodeQuantum (dbuf : List Nat) : List Char → base64.Quantum
  | [] =>
    -- end of input: fine between quanta, corrupt inside one (padding is required)
    if dbuf.length = 0 then ⟨[], [], false⟩ else ⟨[], [], true⟩
  | c :: cs =>
    match base64.decodeMap c with
    | some v =>
      if dbuf.length + 1 = 4 then ⟨cs, base64.Quantum.convert (dbuf ++ [v]) 4, false⟩
      else base64.decodeQuantum (dbuf ++ [v]) cs
    | none =>
      if c == '\n' || c == '\r' then base64.decodeQuantum dbuf cs
      else if c != '=' then ⟨cs, [], true⟩
      else if dbuf.length < 2 then ⟨cs, [], true⟩ -- incorrect padding
      else if dbuf.length = 2 then
        -- "==" is expected, the first "=" is already consumed.
        match base64.skipNewlines cs with
        | [] => ⟨[], [], true⟩ -- not enough padding
        | d :: ds =>
          if d != '=' then ⟨d :: ds, [], true⟩ -- incorrect padding
          else
            ⟨base64.skipNewlines ds, base64.Quantum.convert dbuf 2,
              !(base64.skipNewlines ds).isEmpty⟩ -- trailing garbage
      else
        ⟨base64.skipNewlines cs, base64.Quantum.convert dbuf 3,
          !(base64.skipNewlines cs).isEmpty⟩ -- trailing garbage

/-- The loop of `Encoding.Decode`: quantum after quantum until the input is used up
or found corrupt. -/
def base64.Decode : Nat → List Char → List Nat → List Nat × Bool
  | 0, _, acc => (acc, false)
  | fuel + 1, src, acc =>
    if src.isEmpty then (acc, false)
    else
      let q := base64.decodeQuantum [] src
      if q.corrupt then (acc ++ q.bytes, true)
      else base64.Decode fuel q.rest (acc ++ q.bytes)

/-- `base64.StdEncoding.DecodeString`: the decoded bytes and whether an error is returned. -/
def base64.StdEncoding.DecodeString (s : String) : List Nat × Bool :=
  base64.Decode s.data.length s.data []

/-! ## sqlite index planning -/

/-- One entry of `sqlite.IndexInfoInput.Constraints`. -/
structure IndexConstraint where
  ColumnIndex : Int
  Op : Nat
  Usable : Bool
  deriving DecidableEq

/-- `sqlite.ConstraintUsage` -/
structure ConstraintUsage where
  ArgvIndex : Int
  Omit : Bool
  deriving DecidableEq

/-- `sqlite.IndexInfoOutput`, with the fields the code sets. -/
structure IndexInfoOutput where
  ConstraintUsage : List (Option ConstraintUsage)
  IndexString : String
  deriving DecidableEq

/-! ## The `dns` virtual table: planning -/

/-- Local variables of `ResolverTable.BestIndex` that change in its loop. -/
structure BestIndexVars where
  argv : Int
  bitmap : List Nat
  out : IndexInfoOutput
  required : Nat
  deriving DecidableEq

/-- Conversion `byte(col)` of a Go `int`. -/
def byte (col : Int) : Nat := (col % 256).toNat

/-- One iteration of the loop of `ResolverTable.BestIndex` over constraint `i`;
an error is the early `return nil, err`. -/
def ResolverTable.BestIndex.body (st : BestIndexVars) (i : Nat) (cons : IndexConstraint) :
    Except Error BestIndexVars :=
  let col := cons.ColumnIndex
  let op := cons.Op
  if col = ColumnDomain then
    if op ≠ INDEX_CONSTRAINT_EQ then
      .error (.sqlite SQLITE_CONSTRAINT "only equals-to operation is supported")
    else if op = INDEX_CONSTRAINT_EQ ∧ cons.Usable = true then
      .ok { argv := st.argv + 1
            bitmap := st.bitmap ++ [byte col]
            out := { st.out with
              ConstraintUsage := st.out.ConstraintUsage.set i (some { ArgvIndex := st.argv, Omit := true }) }
            required := st.required ||| 0b01 }
    else .ok st
  else if col = ColumnNameserver ∨ col = ColumnType ∨ col = ColumnClass then
    if op ≠ INDEX_CONSTRAINT_EQ then
      .error (.sqlite SQLITE_CONSTRAINT "only equals-to operation is supported")
    else if op = INDEX_CONSTRAINT_EQ ∧ cons.Usable = true then
      -- need omit=false here to maintain invariance of equals-to operation
      .ok { argv := st.argv + 1
            bitmap := st.bitmap ++ [byte col]
            out := { st.out with
              ConstraintUsage := st.out.ConstraintUsage.set i (some { ArgvIndex := st.argv, Omit := false }) }
            required := if col = ColumnNameserver then st.required ||| 0b10 else st.required }
    else .ok st
  else .ok st

/-- The loop `for i, cons := range input.Constraints` of `ResolverTable.BestIndex`. -/
def ResolverTable.BestIndex.loop :
    BestIndexVars → Nat → List IndexConstraint → Except Error BestIndexVars
  | st, _, [] => .ok st
  | st, i, cons :: rest =>
    match ResolverTable.BestIndex.body st i cons with
    | .error err => .error err
    | .ok st1 => ResolverTable.BestIndex.loop st1 (i + 1) rest

/-- `ResolverTable.BestIndex`: the returned `*IndexInfoOutput` (`none` for `nil`) and error. -/
def ResolverTable.BestIndex (constraints : List IndexConstraint) :
    Option IndexInfoOutput × Option Error :=
  let out : IndexInfoOutput :=
    { ConstraintUsage := List.replicate constraints.length none, IndexString := "" }
  match ResolverTable.BestIndex.loop { argv := 1, bitmap := [], out := out, required := 0 } 0
      constraints with
  | .error err => (none, some err)
  | .ok st =>
    if st.required ≠ 0b11 then
      (some st.out, some (.sqlite SQLITE_CONSTRAINT "required constraints not met"))
    else
      -- pass the bitmap as string to Filter() routine
      (some { st.out with IndexString := base64.StdEncoding.EncodeToString st.bitmap }, none)

/-- `SearchListTable.BestIndex`: the returned `*IndexInfoOutput` and error. -/
def SearchListTable.BestIndex.loop :
    IndexInfoOutput → Bool → Nat → List IndexConstraint → Except Error (IndexInfoOutput × Bool)
  | out, domainConstrained, _, [] => .ok (out, domainConstrained)
  | out, domainConstrained, i, cons :: rest =>
    let col := cons.ColumnIndex
    let op := cons.Op
    if col = ColumnPartial ∨ col = ColumnNdots then
      if op ≠ INDEX_CONSTRAINT_EQ then
        .error (.sqlite SQLITE_CONSTRAINT "only equals-to operation is supported")
      else
        let out1 : IndexInfoOutput :=
          if op = INDEX_CONSTRAINT_EQ ∧ cons.Usable = true then
            { out with ConstraintUsage := out.ConstraintUsage.set i (some { ArgvIndex := col + 1, Omit := false }) }
          else out
        SearchListTable.BestIndex.loop out1 (if col = ColumnPartial then true else domainConstrained)
          (i + 1) rest
    else SearchListTable.BestIndex.loop out domainConstrained (i + 1) rest

/-- `SearchListTable.BestIndex` -/
def SearchListTable.BestIndex (constraints : List IndexConstraint) :
    Option IndexInfoOutput × Option Error :=
  let out : IndexInfoOutput :=
    { ConstraintUsage := List.replicate constraints.length none, IndexString := "" }
  match SearchListTable.BestIndex.loop out false 0 constraints with
  | .error err => (none, some err)
  | .ok (out1, domainConstrained) =>
    if !domainConstrained then
      (none, some (.sqlite SQLITE_CONSTRAINT "partial domain value must be provided"))
    else (some out1, none)


/-! ## DNS messages -/

/-- `dns.Question` -/
structure Question where
  Name : String
  Qtype : Nat
  Qclass : Nat
  deriving DecidableEq

/-- `dns.RR_Header`, with the fields the table reports. -/
structure RR_Header where
  Name : String
  Rrtype : Nat
  Class : Nat
  Ttl : Nat
  deriving DecidableEq

/-- A resource record `dns.RR`: its header and its type-specific data. -/
structure RR where
  Hdr : RR_Header
  Rdata : String
  deriving DecidableEq

/-- `dns.Msg`, with the fields the code reads or writes. -/
structure Msg where
  Id : Nat
  RecursionDesired : Bool
  Truncated : Bool
  Question : List Question
  Answer : List RR
  Ns : List RR
  Extra : List RR
  deriving DecidableEq

/-- `new(dns.Msg)` -/
def Msg.new : Msg :=
  { Id := 0, RecursionDesired := false, Truncated := false, Question := [], Answer := [],
    Ns := [], Extra := [] }

/-- The query both `Lookup` methods build: `new(dns.Msg)` with a fresh id, the one question
and recursion desired. -/
def newQuery (id : Nat) (ques : Question) : Msg :=
  { Msg.new with Id := id, Question := [ques], RecursionDesired := true }

/-! ## Package `resolvers` -/

/-- `url.URL` -/
structure URL where
  Scheme : String
  Opaque : String
  User : String
  Host : String
  Path : String
  RawQuery : String
  Fragment : String
  deriving DecidableEq

/-- `url.Values`: the keys of a query string with their values. -/
abbrev Values := List (String × List String)

/-- `url.Values.Has` -/
def Values.Has (v : Values) (key : String) : Bool :=
  (v.lookup key).isSome

/-- `url.Values.Get`: the first value of the key, or the empty string. -/
def Values.Get (v : Values) (key : String) : String :=
  match v.lookup key with
  | some (x :: _) => x
  | _ => ""

/-- `net.JoinHostPort` -/
def net.JoinHostPort (host port : String) : String :=
  if host.data.contains ':' then "[" ++ host ++ "]:" ++ port else host ++ ":" ++ port

/-- `tls.Config`, with the field the code sets. -/
structure TLSConfig where
  ServerName : String
  deriving DecidableEq

/-- `dns.Client`, with the fields the code sets. -/
structure Client where
  Net : String
  TLSConfig : Option TLSConfig
  deriving DecidableEq

/-- ClassicResolver implements classic dns resolver for udp, tcp and tcp-tls protocols. -/
structure ClassicResolver where
  client : Client
  server : String
  deriving DecidableEq

/-- HttpResolver implements dns-over-https resolver. -/
structure HttpResolver where
  server : String
  deriving DecidableEq

/-- A value of the interface `Resolver`: one of its two implementations. -/
inductive Resolver where
  | classic (r : ClassicResolver)
  | http (r : HttpResolver)
  deriving DecidableEq

/-- `http.Response`, with the fields the code reads; `Body` names the body stream. -/
structure Response where
  StatusCode : Nat
  Status : String
  Body : Nat
  deriving DecidableEq

/-- A call that leaves the process: the trace of a run is a list of these. -/
inductive Event where
  /-- `client.Exchange(query, server)` -/
  | Exchange (client : Client) (query : Msg) (server : String)
  /-- `client.Post(url, contentType, body)` -/
  | Post (url contentType : String) (body : List Nat)
  /-- `client.Get(url)` -/
  | Get (url : String)
  /-- `io.ReadAll(body)` -/
  | ReadAll (body : Nat)
  /-- `body.Close()` -/
  | Close (body : Nat)
  deriving DecidableEq

/-- Everything outside the repository that the resolvers call. The pure functions of
`net/url` and the wire codec are functions of their arguments; what the network and the
random source answer may depend on all calls made before (the trace). -/
structure World where
  /-- `url.Parse` -/
  Parse : String → Except Error URL
  /-- `(*url.URL).Hostname` -/
  Hostname : URL → String
  /-- `(*url.URL).Port` -/
  Port : URL → String
  /-- `(*url.URL).Query` -/
  Query : URL → Values
  /-- `(*url.URL).String` -/
  URLString : URL → String
  /-- `dns.Id` -/
  Id : List Event → Nat
  /-- `(*dns.Client).Exchange`, without the round-trip time -/
  Exchange : List Event → Client → Msg → String → Option Msg × Option Error
  /-- `(*dns.Msg).Pack` -/
  Pack : Msg → Except Error (List Nat)
  /-- `(*dns.Msg).Unpack` -/
  Unpack : List Nat → Except Error Msg
  /-- `(*http.Client).Post` -/
  Post : List Event → String → String → List Nat → Except Error Response
  /-- `(*http.Client).Get` -/
  Get : List Event → String → Except Error Response
  /-- `io.ReadAll` on a response body -/
  ReadAll : List Event → Nat → Except Error (List Nat)

/-- `NewClassicResolver` -/
def NewClassicResolver (w : World) (s : String) : Except Error ClassicResolver :=
  match w.Parse s with
  | .error err => .error err
  | .ok ep =>
    let scheme := ep.Scheme
    let server := w.Hostname ep
    let port := w.Port ep
    if scheme = "" ∨ server = "" then .error (.errorf "invalid remote address: %s" [s])
    else if port = "" then .error (.errorf "specify remote port for %s" [scheme])
    else
      let client : Client := { Net := scheme, TLSConfig := none }
      let query := w.Query ep
      if scheme = "tls" ∧ query.Has "hostname" = true then
        .ok { server := net.JoinHostPort server port
              client := { Net := "tcp-tls", TLSConfig := some { ServerName := query.Get "hostname" } } }
      else if scheme = "tls" ∧ query.Has "hostname" = false then
        .error (.errorf "provide 'hostname' for use with TLS" [])
      else .ok { server := net.JoinHostPort server port, client := client }

/-- `NewHttpResolver` -/
def NewHttpResolver (w : World) (s : String) : Except Error HttpResolver :=
  match w.Parse s with
  | .error err => .error (.wrapf err "%s is not a valid https endpoint" [s])
  | .ok ep =>
    if ep.Scheme ≠ "https" then .error (.errorf "missing https in %s" [s])
    else .ok { server := w.URLString ep }

/-- NewResolver returns an instance of Resolver based on the given server address. -/
def NewResolver (w : World) (server : String) : Except Error Resolver :=
  -- parse server into a remote address
  match w.Parse server with
  | .error err => .error err
  | .ok remote =>
    let sch := remote.Scheme
    if sch = "udp" ∨ sch = "tcp" ∨ sch = "tls" then
      (NewClassicResolver w (w.URLString remote)).map Resolver.classic
    else if sch = "https" then
      (NewHttpResolver w (w.URLString remote)).map Resolver.http
    else .error (.errorf "no registered resolver for %q protocol" [sch])

/-- What `Lookup` returns: the message pointer (`none` for `nil`) and the error. -/
abbrev Reply := Option Msg × Option Error

/-- `ClassicResolver.Lookup`. The method calls itself, so the model carries a budget of
nested calls (`fuel`); the result holds the reply, the resolver as the call leaves it and
the trace extended by the calls made. -/
def ClassicResolver.Lookup (w : World) :
    Nat → ClassicResolver → Question → List Event → Run (Reply × ClassicResolver × List Event)
  | 0, _, _, _ => .diverge
  | fuel + 1, rslv, ques, tr =>
    let query := newQuery (w.Id tr) ques
    let reply := w.Exchange tr rslv.client query rslv.server
    let tr1 := tr ++ [Event.Exchange rslv.client query rslv.server]
    match reply with
    | (none, none) => .panic "nil pointer dereference"
    | (some msg, none) =>
      if msg.Truncated then
        let n := rslv.client.Net
        let rslv1 : ClassicResolver := { rslv with client := { rslv.client with Net := "tcp" } }
        match ClassicResolver.Lookup w fuel rslv1 ques tr1 with
        | .ret (r, rslv2, tr2) =>
          -- restore after we're done
          .ret (r, { rslv2 with client := { rslv2.client with Net := n } }, tr2)
        | .panic m => .panic m
        | .diverge => .diverge
      else .ret (reply, rslv, tr1)
    | (_, some _) => .ret (reply, rslv, tr1)

/-- `HttpResolver.Lookup`: the reply and the trace extended by the calls made. -/
def HttpResolver.Lookup (w : World) (rslv : HttpResolver) (ques : Question) (tr : List Event) :
    Reply × List Event :=
  let query := newQuery (w.Id tr) ques
  match w.Pack query with
  | .error err => ((none, some err), tr)
  | .ok buf =>
    match w.Post tr rslv.server "application/dns-message" buf with
    | .error err => ((none, some err), tr ++ [Event.Post rslv.server "application/dns-message" buf])
    | .ok resp0 =>
      let tr1 := tr ++ [Event.Post rslv.server "application/dns-message" buf]
      -- if POST isn't allowed, try GET
      let fallback : Except Error Response × List Event :=
        if resp0.StatusCode = 405 then
          match w.Parse rslv.server with
          | .error err => (.error err, tr1)
          | .ok u =>
            let target := w.URLString
              { u with RawQuery := "dns=" ++ base64.RawURLEncoding.EncodeToString buf }
            (w.Get tr1 target, tr1 ++ [Event.Get target])
        else (.ok resp0, tr1)
      match fallback with
      | (.error err, tr2) => ((none, some err), tr2)
      | (.ok resp, tr2) =>
        -- from here on `defer resp.Body.Close()` runs at every return
        if resp.StatusCode ≠ 200 then
          ((none, some (.errorf "error from nameserver %s" [resp.Status])),
            tr2 ++ [Event.Close resp.Body])
        else
          match w.ReadAll tr2 resp.Body with
          | .error err => ((none, some err), tr2 ++ [Event.ReadAll resp.Body, Event.Close resp.Body])
          | .ok body =>
            match w.Unpack body with
            | .error err =>
              ((none, some (.wrapf err "failed to unpack" [])),
                tr2 ++ [Event.ReadAll resp.Body, Event.Close resp.Body])
            | .ok answer =>
              ((some answer, none), tr2 ++ [Event.ReadAll resp.Body, Event.Close resp.Body])

/-- `Lookup` called through the interface `Resolver`. -/
def Resolver.Lookup (w : World) (fuel : Nat) (rslv : Resolver) (ques : Question)
    (tr : List Event) : Run (Reply × Resolver × List Event) :=
  match rslv with
  | .classic r =>
    match ClassicResolver.Lookup w fuel r ques tr with
    | .ret (reply, r1, tr1) => .ret (reply, .classic r1, tr1)
    | .panic m => .panic m
    | .diverge => .diverge
  | .http r =>
    let res := HttpResolver.Lookup w r ques tr
    .ret (res.1, .http r, res.2)

/-! ## The `dns` virtual table: execution -/

/-- A row of the result: the section it comes from and the record. -/
structure rr where
  section_ : String
  record : RR
  deriving DecidableEq

/-- ResolverCursor represents an open cursor in the returned result-set. -/
structure ResolverCursor where
  ns : String
  pos : Int
  records : List rr
  deriving DecidableEq

/-- The cursor returned by `ResolverTable.Open`: `&ResolverCursor{}`. -/
def ResolverTable.Open : ResolverCursor :=
  { ns := "", pos := 0, records := [] }

/-- Local variables of `ResolverCursor.Filter` set from the bound values. -/
structure FilterVars where
  server : String
  domain : String
  class_ : String
  typ : String
  deriving DecidableEq

/-- The loop `for n, val := range values` of `ResolverCursor.Filter`, from index `n`. -/
def ResolverCursor.Filter.loop (bitmap : List Nat) :
    Nat → List Value → FilterVars → Run FilterVars
  | _, [], v => .ret v
  | n, val :: rest, v =>
    match bitmap.get? n with
    | none => .panic "index out of range"
    | some col =>
      let v1 : FilterVars :=
        if (col : Int) = ColumnDomain then { v with domain := val.Text }
        else if (col : Int) = ColumnType then { v with typ := val.Text }
        else if (col : Int) = ColumnClass then { v with class_ := val.Text }
        else if (col : Int) = ColumnNameserver then { v with server := val.Text }
        else v
      ResolverCursor.Filter.loop bitmap (n + 1) rest v1

/-- `ResolverCursor.Filter`: the cursor after the call, the returned error and the trace. -/
def ResolverCursor.Filter (lib : DnsLib) (w : World) (fuel : Nat) (cur : ResolverCursor)
    (str : String) (values : List Value) (tr : List Event) :
    Run ((ResolverCursor × Option Error) × List Event) :=
  let bitmap := (base64.StdEncoding.DecodeString str).1
  match ResolverCursor.Filter.loop bitmap 0 values
      { server := "", domain := "", class_ := "IN", typ := "A" } with
  | .panic m => .panic m
  | .diverge => .diverge
  | .ret v =>
    match NewResolver w v.server with
    | .error err => .ret ((cur, some err), tr)
    | .ok rslv =>
      let ques : Question :=
        { Name := v.domain, Qtype := lib.StringToType v.typ, Qclass := lib.StringToClass v.class_ }
      match Resolver.Lookup w fuel rslv ques tr with
      | .panic m => .panic m
      | .diverge => .diverge
      | .ret ((_, some err), _, tr1) => .ret ((cur, some err), tr1)
      | .ret ((none, none), _, _) => .panic "nil pointer dereference"
      | .ret ((some msg, none), _, tr1) =>
        let cur1 : ResolverCursor := { cur with ns := v.server, pos := 0 }
        let cur2 : ResolverCursor := { cur1 with records := [] }
        let cur3 := msg.Answer.foldl
          (fun c record => { c with records := c.records ++ [{ section_ := "answer", record := record }] })
          cur2
        let cur4 := msg.Ns.foldl
          (fun c record => { c with records := c.records ++ [{ section_ := "authority", record := record }] })
          cur3
        let cur5 := msg.Extra.foldl
          (fun c record => { c with records := c.records ++ [{ section_ := "extra", record := record }] })
          cur4
        .ret ((cur5, none), tr1)

/-- A call on the `sqlite.VirtualTableContext` that sets the result of a column. -/
inductive ContextCall where
  | ResultText (s : String)
  | ResultInt (n : Int)
  | ResultSubType (n : Nat)
  | ResultBlob (b : List Nat)
  deriving DecidableEq

/-- `ResolverCursor.Column`: the calls made on the context and the returned error;
`encode` stands for `json.NewEncoder(&buf).Encode`. -/
def ResolverCursor.Column (lib : DnsLib) (encode : RR → Except Error (List Nat))
    (cur : ResolverCursor) (col : Int) : Run (List ContextCall × Option Error) :=
  if cur.pos < 0 then .panic "index out of range"
  else
    match cur.records.get? cur.pos.toNat with
    | none => .panic "index out of range"
    | some rr =>
      if col = ColumnDomain then .ret ([.ResultText rr.record.Hdr.Name], none)
      else if col = ColumnSection then .ret ([.ResultText rr.section_], none)
      else if col = ColumnClass then .ret ([.ResultText (lib.ClassToString rr.record.Hdr.Class)], none)
      else if col = ColumnType then .ret ([.ResultText (lib.TypeToString rr.record.Hdr.Rrtype)], none)
      else if col = ColumnTTL then .ret ([.ResultInt rr.record.Hdr.Ttl], none)
      else if col = ColumnNameserver then .ret ([.ResultText cur.ns], none)
      else if col = ColumnData then
        match encode rr.record with
        | .error err => .ret ([], some err)
        | .ok buf => .ret ([.ResultSubType 74, .ResultBlob buf], none)
      else .ret ([], none)

/-- `ResolverCursor.Next` -/
def ResolverCursor.Next (cur : ResolverCursor) : ResolverCursor :=
  { cur with pos := cur.pos + 1 }

/-- `ResolverCursor.Eof` -/
def ResolverCursor.Eof (cur : ResolverCursor) : Bool :=
  decide (cur.pos ≥ (cur.records.length : Int))

/-- `SearchListCursor.Column`: the calls made on the context and the returned error. -/
def SearchListCursor.Column (cur : SearchListCursor) (col : Int) :
    Run (List ContextCall × Option Error) :=
  if col = ColumnPartial then .ret ([.ResultText cur.partial_], none)
  else if col = ColumnNdots then .ret ([.ResultInt cur.ndots], none)
  else if col = ColumnFqdn then
    if cur.pos < 0 then .panic "index out of range"
    else
      match cur.fqdn.get? cur.pos.toNat with
      | none => .panic "index out of range"
      | some name => .ret ([.ResultText name], none)
  else .ret ([], none)

/-! ## Concrete inputs used in the examples -/

/-- A resolv.conf with the search list `example.com.`, `corp.`. -/
def exampleConfig : ClientConfig :=
  { Servers := [], Search := ["example.com.", "corp."], Ndots := 1 }

/-! ## Specification-level descriptions of the planning loop -/

/-- The columns on which `ResolverTable.BestIndex` looks at a constraint. -/
def ResolverTable.constrained (col : Int) : Prop :=
  col = ColumnDomain ∨ col = ColumnNameserver ∨ col = ColumnType ∨ col = ColumnClass

instance (col : Int) : Decidable (ResolverTable.constrained col) := by
  unfold ResolverTable.constrained
  infer_instance

/-- A constraint that the planning loop accepts: usable, equality, on one of the four
columns. -/
def ResolverTable.accepted (c : IndexConstraint) : Bool :=
  c.Usable && decide (c.Op = INDEX_CONSTRAINT_EQ) && decide (ResolverTable.constrained c.ColumnIndex)

/-- The value of `required` once a domain (`d`) and a nameserver (`n`) constraint have
or have not been accepted. -/
def ResolverTable.requiredBits (d n : Bool) : Nat :=
  (if d then 0b01 else 0) ||| (if n then 0b10 else 0)

/-- The constraint-usage entries of a list of constraints when the first accepted one gets
argument position `argv`. -/
def ResolverTable.usage : Int → List IndexConstraint → List (Option ConstraintUsage)
  | _, [] => []
  | argv, c :: cs =>
    if ResolverTable.accepted c then
      some { ArgvIndex := argv, Omit := decide (c.ColumnIndex = ColumnDomain) } ::
        ResolverTable.usage (argv + 1) cs
    else none :: ResolverTable.usage argv cs

/-- Constraints offered for `SELECT ... FROM dns WHERE domain = ? AND nameserver = ?
AND type = ? AND section > ?`, the one on `type` not usable. -/
def exampleConstraints : List IndexConstraint :=
  [{ ColumnIndex := 0, Op := 2, Usable := true }, { ColumnIndex := 5, Op := 2, Usable := true },
   { ColumnIndex := 3, Op := 2, Usable := false }, { ColumnIndex := 1, Op := 4, Usable := true }]

/-- The forward protocol of the host on the `dns` cursor: while `Eof` is false, the row at
the current position is read with `Column` and `Next` is called. The result lists the
positions read, in order; `steps` bounds the number of rows read. -/
def ResolverCursor.visit : Nat → ResolverCursor → List Int
  | 0, _ => []
  | steps + 1, cur => if cur.Eof then [] else cur.pos :: ResolverCursor.visit steps cur.Next

/-- The forward protocol of the host on the `search` cursor. -/
def SearchListCursor.visit : Nat → SearchListCursor → List Int
  | 0, _ => []
  | steps + 1, cur => if cur.Eof then [] else cur.pos :: SearchListCursor.visit steps cur.Next

/-- The endpoint `udp://1.1.1.1:53`, parsed. -/
def exampleURL : URL :=
  { Scheme := "udp", Opaque := "", User := "", Host := "1.1.1.1:53", Path := "", RawQuery := "",
    Fragment := "" }

/-- The endpoint `ftp://example.com:21`, parsed. -/
def exampleFtpURL : URL :=
  { Scheme := "ftp", Opaque := "", User := "", Host := "example.com:21", Path := "", RawQuery := "",
    Fragment := "" }

/-- A world that knows two endpoints, `udp://1.1.1.1:53` and `ftp://example.com:21`, and
whose network answers as `exchange` says; no HTTP server answers. -/
def exampleWorld (exchange : List Event → Client → Msg → String → Option Msg × Option Error) :
    World :=
  { Parse := fun s =>
      if s = "udp://1.1.1.1:53" then .ok exampleURL
      else if s = "ftp://example.com:21" then .ok exampleFtpURL
      else .error (.foreign "parse error")
    Hostname := fun u => String.mk (u.Host.data.takeWhile (fun c => c != ':'))
    Port := fun u => String.mk ((u.Host.data.dropWhile (fun c => c != ':')).drop 1)
    Query := fun _ => []
    URLString := fun u => u.Scheme ++ "://" ++ u.Host
    Id := fun tr => tr.length
    Exchange := exchange
    Pack := fun _ => .ok []
    Unpack := fun _ => .error (.foreign "bad message")
    Post := fun _ _ _ _ => .error (.foreign "connection refused")
    Get := fun _ _ => .error (.foreign "connection refused")
    ReadAll := fun _ _ => .error (.foreign "closed") }

/-- A record `name type IN ttl data`. -/
def exampleRR (name : String) (type : Nat) (data : String) : RR :=
  { Hdr := { Name := name, Rrtype := type, Class := 1, Ttl := 300 }, Rdata := data }

/-- A response with two answers, one authority record and one additional record. -/
def exampleMsg : Msg :=
  { Msg.new with
    Answer := [exampleRR "www.example.com." 5 "example.com.", exampleRR "example.com." 1 "192.0.2.1"]
    Ns := [exampleRR "example.com." 2 "ns.example.com."]
    Extra := [exampleRR "ns.example.com." 1 "192.0.2.53"] }

/-- A network on which every exchange is answered with `exampleMsg`. -/
def exampleAnswering : List Event → Client → Msg → String → Option Msg × Option Error :=
  fun _ _ _ _ => (some exampleMsg, none)

/-- A network on which the first `n` exchanges are answered with a truncated message and
the later ones with `exampleMsg`. -/
def exampleTruncating (n : Nat) : List Event → Client → Msg → String → Option Msg × Option Error :=
  fun tr _ _ _ =>
    if tr.length < n then (some { exampleMsg with Truncated := true }, none)
    else (some exampleMsg, none)

/-- A network on which every exchange is answered with a truncated message. -/
def exampleTruncated : List Event → Client → Msg → String → Option Msg × Option Error :=
  fun _ _ _ _ => (some { exampleMsg with Truncated := true }, none)

/-- The resolver built for `udp://1.1.1.1:53`. -/
def exampleResolver : ClassicResolver :=
  { client := { Net := "udp", TLSConfig := none }, server := "1.1.1.1:53" }

/-- The question `example.com. IN A`. -/
def exampleQuestion : Question :=
  { Name := "example.com.", Qtype := 1, Qclass := 1 }

/-- The rows of `exampleMsg`, as `Filter` leaves them. -/
def exampleRows : ResolverCursor :=
  { ns := "udp://1.1.1.1:53", pos := 0
    records :=
      [{ section_ := "answer", record := exampleRR "www.example.com." 5 "example.com." },
       { section_ := "answer", record := exampleRR "example.com." 1 "192.0.2.1" },
       { section_ := "authority", record := exampleRR "example.com." 2 "ns.example.com." },
       { section_ := "extra", record := exampleRR "ns.example.com." 1 "192.0.2.53" }] }

/-- The candidates for `host` with ndots 1 and the search list of `exampleConfig`. -/
def exampleCandidates : SearchListCursor :=
  { pos := 0, partial_ := "host", ndots := 1,
    fqdn := ["host.example.com.", "host.corp.", "host."] }

/-- The records of one section of a message, each tagged with the section name. -/
def rr.tag (name : String) (records : List RR) : List rr :=
  records.map (fun r => { section_ := name, record := r })

/-- The endpoint `tls://1.1.1.1:853?hostname=example`, parsed. -/
def exampleTlsURL : URL :=
  { Scheme := "tls", Opaque := "", User := "", Host := "1.1.1.1:853", Path := "",
    RawQuery := "hostname=example", Fragment := "" }

/-- The endpoint `udp://1.1.1.1:53?hostname=example`, parsed. -/
def exampleUdpHostnameURL : URL :=
  { Scheme := "udp", Opaque := "", User := "", Host := "1.1.1.1:53", Path := "",
    RawQuery := "hostname=example", Fragment := "" }

/-- The world of `exampleWorld`, which also knows the endpoints
`tls://1.1.1.1:853?hostname=example`, `tls://1.1.1.1:853` and
`udp://1.1.1.1:53?hostname=example` and reads the query string `hostname=example`. -/
def exampleTlsWorld : World :=
  { exampleWorld exampleAnswering with
    Parse := fun s =>
      if s = "tls://1.1.1.1:853?hostname=example" then .ok exampleTlsURL
      else if s = "tls://1.1.1.1:853" then .ok { exampleTlsURL with RawQuery := "" }
      else if s = "udp://1.1.1.1:53?hostname=example" then .ok exampleUdpHostnameURL
      else .error (.foreign "parse error")
    Query := fun u => if u.RawQuery = "hostname=example" then [("hostname", ["example"])] else [] }

/-- A network on which every exchange fails. -/
def exampleFailing : List Event → Client → Msg → String → Option Msg × Option Error :=
  fun _ _ _ _ => (none, some (.foreign "i/o timeout"))

/-- The endpoint `https://dns.example/dns-query`, parsed. -/
def exampleHttpsURL : URL :=
  { Scheme := "https", Opaque := "", User := "", Host := "dns.example", Path := "/dns-query",
    RawQuery := "", Fragment := "" }

/-- A world with one DoH server at `https://dns.example/dns-query`: every POST is answered
with `post`, every GET with `get`; the body numbered 2 reads as three bytes that unpack
to `exampleMsg`; a query packs to the three bytes 171, 205, 1. -/
def exampleHttpWorld (post get : Response) : World :=
  { Parse := fun s =>
      if s = "https://dns.example/dns-query" then .ok exampleHttpsURL
      else .error (.foreign "parse error")
    Hostname := fun u => u.Host
    Port := fun _ => ""
    Query := fun _ => []
    URLString := fun u =>
      u.Scheme ++ "://" ++ u.Host ++ u.Path ++ (if u.RawQuery = "" then "" else "?" ++ u.RawQuery)
    Id := fun tr => tr.length
    Exchange := fun _ _ _ _ => (none, some (.foreign "no route to host"))
    Pack := fun _ => .ok [171, 205, 1]
    Unpack := fun b => if b = [1, 2, 3] then .ok exampleMsg else .error (.foreign "bad message")
    Post := fun _ _ _ _ => .ok post
    Get := fun _ _ => .ok get
    ReadAll := fun _ body => if body = 2 then .ok [1, 2, 3] else .ok [] }

/-- The resolver built for `https://dns.example/dns-query`. -/
def exampleHttpResolver : HttpResolver :=
  { server := "https://dns.example/dns-query" }

/-- The usage entries that `SearchListTable.BestIndex` writes for a list of constraints:
a usable constraint on `partial` or `ndots` gets the argument position `column + 1`. -/
def SearchListTable.usage (cs : List IndexConstraint) : List (Option ConstraintUsage) :=
  cs.map (fun c =>
    if (c.ColumnIndex = ColumnPartial ∨ c.ColumnIndex = ColumnNdots) ∧ c.Usable = true then
      some { ArgvIndex := c.ColumnIndex + 1, Omit := false }
    else none)

/-- The value bound to the role of column `col` by a plan and its arguments: the text of
the last argument whose plan byte is `col`, or `dflt` when no argument has that role. -/
def ResolverCursor.bound (bitmap : List Nat) (values : List Value) (col : Int) (dflt : String) :
    String :=
  match ((bitmap.zip values).filter (fun p => decide ((p.1 : Int) = col))).getLast? with
  | some p => p.2.Text
  | none => dflt

/-! # Theorems -/

/-! ## The search-list cursor -/

/-- The loop over the search list appends one candidate per entry, in order. -/
theorem searchList_foldl_eq (f : String → String) (l : List String) (cur : SearchListCursor) :
    l.foldl (fun c s => { c with fqdn := c.fqdn ++ [f s] }) cur =
      { cur with fqdn := cur.fqdn ++ l.map f } := by
  induction l generalizing cur with
  | nil => simp
  | cons s l ih => simp [List.foldl_cons, ih]

/-- What `Filter` returns for a name that is not fully qualified, from any prior cursor
state: the candidates are appended to the list the cursor already holds. -/
theorem searchList_filter_not_fqdn (lib : DnsLib) (cur : SearchListCursor) (v0 : Value)
    (rest : List Value) (config : ClientConfig)
    (hfq : lib.IsFqdn v0.Text = false)
    (hcfg : lib.ClientConfigFromFile "/etc/resolv.conf" = .ok config) :
    SearchListCursor.Filter lib cur (v0 :: rest) =
      .ret ({ pos := 0, partial_ := v0.Text,
              ndots := (match rest with
                | [] => 1
                | v1 :: _ => v1.Int),
              fqdn := cur.fqdn
                ++ (if lib.CountLabel v0.Text > (match rest with
                      | [] => 1
                      | v1 :: _ => v1.Int) then [lib.Fqdn v0.Text] else [])
                ++ config.Search.map (fun s => lib.Fqdn (lib.Fqdn v0.Text ++ s))
                ++ (if lib.CountLabel v0.Text ≤ (match rest with
                      | [] => 1
                      | v1 :: _ => v1.Int) then [lib.Fqdn v0.Text] else []) }, none) := by
  unfold SearchListCursor.Filter
  simp only [hfq, hcfg, Bool.false_eq_true, if_false]
  rw [searchList_foldl_eq (fun s => lib.Fqdn (lib.Fqdn v0.Text ++ s))]
  split_ifs <;> simp

/-- **C1.** For a name `part` that is not fully qualified, an `ndots` with
`CountLabel part ≤ ndots` (the default 1 when only the name is bound, the bound value
otherwise) and a search list `config.Search`, `Filter` on a freshly opened cursor succeeds
and leaves the candidates `Fqdn (fq ++ s)` for each entry `s` in order, then `fq` last,
where `fq = Fqdn part`. -/
theorem searchList_filter_suffixed_first (lib : DnsLib) (part : String) (ndots : Int)
    (values : List Value) (config : ClientConfig)
    (hvalues : (∃ v0, values = [v0] ∧ v0.Text = part ∧ ndots = 1) ∨
      (∃ v0 v1, values = [v0, v1] ∧ v0.Text = part ∧ v1.Int = ndots))
    (hfq : lib.IsFqdn part = false)
    (hcfg : lib.ClientConfigFromFile "/etc/resolv.conf" = .ok config)
    (hle : lib.CountLabel part ≤ ndots) :
    SearchListCursor.Filter lib SearchListTable.Open values =
      .ret ({ pos := 0, partial_ := part, ndots := ndots,
              fqdn := config.Search.map (fun s => lib.Fqdn (lib.Fqdn part ++ s))
                ++ [lib.Fqdn part] }, none) := by
  rcases hvalues with ⟨v0, rfl, rfl, rfl⟩ | ⟨v0, v1, rfl, rfl, rfl⟩
  · rw [searchList_filter_not_fqdn lib _ v0 [] config hfq hcfg]
    simp [SearchListTable.Open, hle, not_lt.mpr hle]
  · rw [searchList_filter_not_fqdn lib _ v0 [v1] config hfq hcfg]
    simp [SearchListTable.Open, hle, not_lt.mpr hle]

/-- Witness of C1: `host`, ndots 1, search list `example.com.`, `corp.`. -/
theorem searchList_filter_suffixed_first_witness :
    dns.IsFqdn "host" = false ∧ dns.CountLabel "host" ≤ 1 ∧
    SearchListCursor.Filter (dns.lib (.ok exampleConfig)) SearchListTable.Open
        [{ Text := "host", Int := 0 }, { Text := "1", Int := 1 }] =
      .ret ({ pos := 0, partial_ := "host", ndots := 1,
              fqdn := ["host.example.com.", "host.corp.", "host."] }, none) :=
  ⟨by decide, by decide,
    (searchList_filter_suffixed_first (dns.lib (.ok exampleConfig)) "host" 1
      [{ Text := "host", Int := 0 }, { Text := "1", Int := 1 }] exampleConfig
      (Or.inr ⟨_, _, rfl, rfl, rfl⟩) (by decide) rfl (by decide)).trans (by decide)⟩

/-- **C2.** For a name `part` that is not fully qualified, an `ndots` with
`CountLabel part > ndots` and a search list `config.Search`, `Filter` on a freshly opened
cursor succeeds and leaves the candidates `fq` first, then `Fqdn (fq ++ s)` for each entry
`s` in order, where `fq = Fqdn part`. -/
theorem searchList_filter_unsuffixed_first (lib : DnsLib) (part : String) (ndots : Int)
    (values : List Value) (config : ClientConfig)
    (hvalues : (∃ v0, values = [v0] ∧ v0.Text = part ∧ ndots = 1) ∨
      (∃ v0 v1, values = [v0, v1] ∧ v0.Text = part ∧ v1.Int = ndots))
    (hfq : lib.IsFqdn part = false)
    (hcfg : lib.ClientConfigFromFile "/etc/resolv.conf" = .ok config)
    (hgt : lib.CountLabel part > ndots) :
    SearchListCursor.Filter lib SearchListTable.Open values =
      .ret ({ pos := 0, partial_ := part, ndots := ndots,
              fqdn := lib.Fqdn part ::
                config.Search.map (fun s => lib.Fqdn (lib.Fqdn part ++ s)) }, none) := by
  rcases hvalues with ⟨v0, rfl, rfl, rfl⟩ | ⟨v0, v1, rfl, rfl, rfl⟩
  · rw [searchList_filter_not_fqdn lib _ v0 [] config hfq hcfg]
    simp [SearchListTable.Open, hgt, not_le.mpr hgt]
  · rw [searchList_filter_not_fqdn lib _ v0 [v1] config hfq hcfg]
    simp [SearchListTable.Open, hgt, not_le.mpr hgt]

/-- Witness of C2: `host.sub`, ndots 1, search list `example.com.`, `corp.`. -/
theorem searchList_filter_unsuffixed_first_witness :
    dns.IsFqdn "host.sub" = false ∧ dns.CountLabel "host.sub" > 1 ∧
    SearchListCursor.Filter (dns.lib (.ok exampleConfig)) SearchListTable.Open
        [{ Text := "host.sub", Int := 0 }, { Text := "1", Int := 1 }] =
      .ret ({ pos := 0, partial_ := "host.sub", ndots := 1,
              fqdn := ["host.sub.", "host.sub.example.com.", "host.sub.corp."] }, none) :=
  ⟨by decide, by decide,
    (searchList_filter_unsuffixed_first (dns.lib (.ok exampleConfig)) "host.sub" 1
      [{ Text := "host.sub", Int := 0 }, { Text := "1", Int := 1 }] exampleConfig
      (Or.inr ⟨_, _, rfl, rfl, rfl⟩) (by decide) rfl (by decide)).trans (by decide)⟩

/-- **C3.** For a name that is already fully qualified, whatever the other bound values
(ndots), the prior cursor state and the system configuration (readable or not), `Filter`
succeeds and leaves exactly the candidate list `[part]`; the result does not depend on
what reading the configuration would give, so the search list is not consulted. -/
theorem searchList_filter_fqdn (lib : DnsLib) (cur : SearchListCursor) (v0 : Value)
    (rest : List Value) (hfq : lib.IsFqdn v0.Text = true) :
    SearchListCursor.Filter lib cur (v0 :: rest) =
      .ret ({ pos := 0, partial_ := v0.Text,
              ndots := (match rest with
                | [] => 1
                | v1 :: _ => v1.Int),
              fqdn := [v0.Text] }, none) ∧
    ∀ read : String → Except Error ClientConfig,
      SearchListCursor.Filter { lib with ClientConfigFromFile := read } cur (v0 :: rest) =
        SearchListCursor.Filter lib cur (v0 :: rest) := by
  refine ⟨?_, ?_⟩
  · unfold SearchListCursor.Filter
    simp only [hfq, if_true]
  · intro read
    unfold SearchListCursor.Filter
    simp only [hfq, if_true]

/-- Witness of C3: `host.` on a cursor that already holds candidates, with an unreadable
configuration. -/
theorem searchList_filter_fqdn_witness :
    dns.IsFqdn "host." = true ∧
    SearchListCursor.Filter (dns.lib (.error (.foreign "no such file")))
        { pos := 3, partial_ := "old", ndots := 2, fqdn := ["old.", "old.corp."] }
        [{ Text := "host.", Int := 0 }, { Text := "5", Int := 5 }] =
      .ret ({ pos := 0, partial_ := "host.", ndots := 5, fqdn := ["host."] }, none) :=
  ⟨by decide,
    (searchList_filter_fqdn (dns.lib (.error (.foreign "no such file")))
      { pos := 3, partial_ := "old", ndots := 2, fqdn := ["old.", "old.corp."] }
      { Text := "host.", Int := 0 } [{ Text := "5", Int := 5 }] (by decide)).1⟩


/-! ## Planning of the `dns` table -/

/-- Setting or clearing the two bits of `required`. -/
theorem requiredBits_lor (d n : Bool) :
    ResolverTable.requiredBits d n ||| 0b01 = ResolverTable.requiredBits true n ∧
    ResolverTable.requiredBits d n ||| 0b10 = ResolverTable.requiredBits d true := by
  cases d <;> cases n <;> decide

/-- Both bits of `required` are set exactly when both constraints were accepted. -/
theorem requiredBits_eq_three (d n : Bool) :
    ResolverTable.requiredBits d n = 0b11 ↔ d = true ∧ n = true := by
  cases d <;> cases n <;> decide

/-- One iteration on a constraint with a non-equality operator on a constrained column:
the early return. -/
theorem bestIndex_body_reject (st : BestIndexVars) (i : Nat) (c : IndexConstraint)
    (hcol : ResolverTable.constrained c.ColumnIndex) (hop : c.Op ≠ INDEX_CONSTRAINT_EQ) :
    ResolverTable.BestIndex.body st i c =
      .error (.sqlite SQLITE_CONSTRAINT "only equals-to operation is supported") := by
  unfold ResolverTable.BestIndex.body
  rcases hcol with h | h | h | h <;> simp [h, hop, ColumnDomain, ColumnNameserver, ColumnType, ColumnClass]

/-- One iteration on a constraint that is not rejected. -/
theorem bestIndex_body_pass (st : BestIndexVars) (i : Nat) (c : IndexConstraint)
    (hop : ResolverTable.constrained c.ColumnIndex → c.Op = INDEX_CONSTRAINT_EQ) :
    ResolverTable.BestIndex.body st i c = .ok
      (if ResolverTable.accepted c then
        { argv := st.argv + 1
          bitmap := st.bitmap ++ [byte c.ColumnIndex]
          out := { st.out with
            ConstraintUsage := st.out.ConstraintUsage.set i
              (some { ArgvIndex := st.argv, Omit := decide (c.ColumnIndex = ColumnDomain) }) }
          required :=
            if c.ColumnIndex = ColumnDomain then st.required ||| 0b01
            else if c.ColumnIndex = ColumnNameserver then st.required ||| 0b10
            else st.required }
      else st) := by
  unfold ResolverTable.BestIndex.body ResolverTable.accepted
  unfold ResolverTable.constrained at *
  by_cases h0 : c.ColumnIndex = ColumnDomain
  · have := hop (Or.inl h0)
    cases hu : c.Usable <;> simp [h0, this, hu]
  · by_cases h5 : c.ColumnIndex = ColumnNameserver
    · have := hop (Or.inr (Or.inl h5))
      cases hu : c.Usable <;> simp [h5, this, hu, ColumnDomain, ColumnNameserver]
    · by_cases h3 : c.ColumnIndex = ColumnType
      · have := hop (Or.inr (Or.inr (Or.inl h3)))
        cases hu : c.Usable <;> simp [h3, this, hu, ColumnDomain, ColumnNameserver, ColumnType]
      · by_cases h2 : c.ColumnIndex = ColumnClass
        · have := hop (Or.inr (Or.inr (Or.inr h2)))
          cases hu : c.Usable <;>
            simp [h2, this, hu, ColumnDomain, ColumnNameserver, ColumnType, ColumnClass]
        · simp [h0, h5, h3, h2]


/-- The planning loop stops with the operator error as soon as one constraint on a
constrained column has a non-equality operator. -/
theorem bestIndex_loop_reject (cs : List IndexConstraint) :
    ∀ (st : BestIndexVars) (i : Nat),
      (∃ c ∈ cs, ResolverTable.constrained c.ColumnIndex ∧ c.Op ≠ INDEX_CONSTRAINT_EQ) →
      ResolverTable.BestIndex.loop st i cs =
        .error (.sqlite SQLITE_CONSTRAINT "only equals-to operation is supported") := by
  induction cs with
  | nil => intro st i h; simp at h
  | cons c cs ih =>
    intro st i h
    unfold ResolverTable.BestIndex.loop
    by_cases hc : ResolverTable.constrained c.ColumnIndex ∧ c.Op ≠ INDEX_CONSTRAINT_EQ
    · rw [bestIndex_body_reject st i c hc.1 hc.2]
    · have hpass : ResolverTable.constrained c.ColumnIndex → c.Op = INDEX_CONSTRAINT_EQ := by
        intro h1
        by_contra h2
        exact hc ⟨h1, h2⟩
      rw [bestIndex_body_pass st i c hpass]
      obtain ⟨x, hx, hbad⟩ := h
      rcases List.mem_cons.mp hx with rfl | hx
      · exact absurd hbad hc
      · exact ih _ _ ⟨x, hx, hbad⟩

/-- The planning loop on constraints none of which is rejected: the final values of its
variables. `pre` holds the usage entries of the constraints already visited. -/
theorem bestIndex_loop_pass (cs : List IndexConstraint) :
    ∀ (st : BestIndexVars) (i : Nat) (pre : List (Option ConstraintUsage)) (d n : Bool),
      (∀ c ∈ cs, ResolverTable.constrained c.ColumnIndex → c.Op = INDEX_CONSTRAINT_EQ) →
      st.out.ConstraintUsage = pre ++ List.replicate cs.length none →
      pre.length = i →
      st.required = ResolverTable.requiredBits d n →
      ResolverTable.BestIndex.loop st i cs = .ok
        { argv := st.argv + ((cs.filter ResolverTable.accepted).length : Int)
          bitmap := st.bitmap ++ (cs.filter ResolverTable.accepted).map (fun c => byte c.ColumnIndex)
          out := { st.out with ConstraintUsage := pre ++ ResolverTable.usage st.argv cs }
          required := ResolverTable.requiredBits
            (d || cs.any (fun c => ResolverTable.accepted c && decide (c.ColumnIndex = ColumnDomain)))
            (n || cs.any (fun c => ResolverTable.accepted c && decide (c.ColumnIndex = ColumnNameserver))) } := by
  induction cs with
  | nil =>
    intro st i pre d n _ hu _ hr
    simp only [List.length_nil, List.replicate_zero, List.append_nil] at hu
    simp [ResolverTable.BestIndex.loop, ResolverTable.usage, ← hu, ← hr]
  | cons c cs ih =>
    intro st i pre d n hop hu hlen hr
    unfold ResolverTable.BestIndex.loop
    rw [bestIndex_body_pass st i c (hop c (List.mem_cons_self _ _))]
    have hop1 : ∀ x ∈ cs, ResolverTable.constrained x.ColumnIndex → x.Op = INDEX_CONSTRAINT_EQ :=
      fun x hx => hop x (List.mem_cons_of_mem _ hx)
    have hset : ∀ e : Option ConstraintUsage,
        st.out.ConstraintUsage.set i e = (pre ++ [e]) ++ List.replicate cs.length none := by
      intro e
      rw [hu, List.set_append_right _ _ (by omega)]
      simp [hlen, List.replicate_succ]
    cases hacc : ResolverTable.accepted c
    · -- not accepted: nothing changes
      have hu1 : st.out.ConstraintUsage = (pre ++ [none]) ++ List.replicate cs.length none := by
        rw [hu]; simp [List.replicate_succ]
      simp only [Bool.false_eq_true, if_false]
      rw [ih st (i + 1) (pre ++ [none]) d n hop1 hu1 (by simp [hlen]) hr]
      simp [ResolverTable.usage, hacc, List.filter_cons]
    · simp only [if_true]
      have hcol : ResolverTable.constrained c.ColumnIndex := by
        simp only [ResolverTable.accepted, Bool.and_eq_true, decide_eq_true_eq] at hacc
        exact hacc.2
      by_cases h0 : c.ColumnIndex = ColumnDomain
      · have h5 : c.ColumnIndex ≠ ColumnNameserver := by rw [h0]; decide
        rw [ih _ (i + 1) (pre ++ [some { ArgvIndex := st.argv, Omit := decide (c.ColumnIndex = ColumnDomain) }])
          true n hop1 (hset _) (by simp [hlen])
          (by simp only [h0, if_true, hr]; exact (requiredBits_lor d n).1)]
        simp [ResolverTable.usage, hacc, List.filter_cons, h0,
          (by decide : ColumnDomain ≠ ColumnNameserver)]
        omega
      · by_cases h5 : c.ColumnIndex = ColumnNameserver
        · rw [ih _ (i + 1) (pre ++ [some { ArgvIndex := st.argv, Omit := decide (c.ColumnIndex = ColumnDomain) }])
            d true hop1 (hset _) (by simp [hlen])
            (by simp only [h0, h5, if_true, if_false, hr]; exact (requiredBits_lor d n).2)]
          simp [ResolverTable.usage, hacc, List.filter_cons, h5,
            (by decide : ColumnNameserver ≠ ColumnDomain)]
          omega
        · rw [ih _ (i + 1) (pre ++ [some { ArgvIndex := st.argv, Omit := decide (c.ColumnIndex = ColumnDomain) }])
            d n hop1 (hset _) (by simp [hlen])
            (by simp only [h0, h5, if_false, hr])]
          simp [ResolverTable.usage, hacc, List.filter_cons, h0, h5]
          omega


/-- `BestIndex` when a constraint on a constrained column has a non-equality operator. -/
theorem bestIndex_eq_of_reject (cs : List IndexConstraint)
    (h : ∃ c ∈ cs, ResolverTable.constrained c.ColumnIndex ∧ c.Op ≠ INDEX_CONSTRAINT_EQ) :
    ResolverTable.BestIndex cs =
      (none, some (.sqlite SQLITE_CONSTRAINT "only equals-to operation is supported")) := by
  unfold ResolverTable.BestIndex
  simp only [bestIndex_loop_reject cs _ 0 h]

/-- `BestIndex` when no operator is rejected: the usage entries are those of
`ResolverTable.usage`, and the call succeeds exactly when a domain and a nameserver
constraint were accepted. -/
theorem bestIndex_eq_of_pass (cs : List IndexConstraint)
    (hop : ∀ c ∈ cs, ResolverTable.constrained c.ColumnIndex → c.Op = INDEX_CONSTRAINT_EQ) :
    ResolverTable.BestIndex cs =
      if cs.any (fun c => ResolverTable.accepted c && decide (c.ColumnIndex = ColumnDomain)) = true ∧
          cs.any (fun c => ResolverTable.accepted c && decide (c.ColumnIndex = ColumnNameserver)) = true
      then
        (some { ConstraintUsage := ResolverTable.usage 1 cs
                IndexString := base64.StdEncoding.EncodeToString
                  ((cs.filter ResolverTable.accepted).map (fun c => byte c.ColumnIndex)) }, none)
      else
        (some { ConstraintUsage := ResolverTable.usage 1 cs, IndexString := "" },
          some (.sqlite SQLITE_CONSTRAINT "required constraints not met")) := by
  unfold ResolverTable.BestIndex
  have hloop := bestIndex_loop_pass cs
    { argv := 1, bitmap := []
      out := { ConstraintUsage := List.replicate cs.length none, IndexString := "" }
      required := 0 } 0 [] false false hop (by simp) rfl rfl
  simp only [hloop, Bool.false_or, List.nil_append, ne_eq, requiredBits_eq_three]
  split_ifs <;> simp_all

/-- An accepted constraint on the domain column, spelled out. -/
theorem accepted_domain_iff (c : IndexConstraint) :
    (ResolverTable.accepted c && decide (c.ColumnIndex = ColumnDomain)) = true ↔
      c.ColumnIndex = ColumnDomain ∧ c.Op = INDEX_CONSTRAINT_EQ ∧ c.Usable = true := by
  simp only [ResolverTable.accepted, ResolverTable.constrained, Bool.and_eq_true,
    decide_eq_true_eq]
  tauto

/-- An accepted constraint on the nameserver column, spelled out. -/
theorem accepted_nameserver_iff (c : IndexConstraint) :
    (ResolverTable.accepted c && decide (c.ColumnIndex = ColumnNameserver)) = true ↔
      c.ColumnIndex = ColumnNameserver ∧ c.Op = INDEX_CONSTRAINT_EQ ∧ c.Usable = true := by
  simp only [ResolverTable.accepted, ResolverTable.constrained, Bool.and_eq_true,
    decide_eq_true_eq]
  tauto

/-- **C4.** `ResolverTable.BestIndex` returns a plan and no error if and only if (a) every
constraint on the domain, nameserver, type or class column uses the equality operator,
(b) a usable equality constraint on domain is offered and (c) a usable equality constraint
on nameserver is offered. Otherwise it returns a `SQLITE_CONSTRAINT` error: "only equals-to
operation is supported" when (a) fails (whatever (b) and (c)), and "required constraints
not met" when (a) holds and (b) or (c) fails. -/
theorem resolverTable_bestIndex_succeeds_iff (cs : List IndexConstraint) :
    (((ResolverTable.BestIndex cs).1.isSome = true ∧ (ResolverTable.BestIndex cs).2 = none) ↔
      ((∀ c ∈ cs, ResolverTable.constrained c.ColumnIndex → c.Op = INDEX_CONSTRAINT_EQ) ∧
        (∃ c ∈ cs, c.ColumnIndex = ColumnDomain ∧ c.Op = INDEX_CONSTRAINT_EQ ∧ c.Usable = true) ∧
        (∃ c ∈ cs, c.ColumnIndex = ColumnNameserver ∧ c.Op = INDEX_CONSTRAINT_EQ ∧
          c.Usable = true))) ∧
    (¬ (∀ c ∈ cs, ResolverTable.constrained c.ColumnIndex → c.Op = INDEX_CONSTRAINT_EQ) →
      ResolverTable.BestIndex cs =
        (none, some (.sqlite SQLITE_CONSTRAINT "only equals-to operation is supported"))) ∧
    ((∀ c ∈ cs, ResolverTable.constrained c.ColumnIndex → c.Op = INDEX_CONSTRAINT_EQ) →
      ¬ ((∃ c ∈ cs, c.ColumnIndex = ColumnDomain ∧ c.Op = INDEX_CONSTRAINT_EQ ∧ c.Usable = true) ∧
        (∃ c ∈ cs, c.ColumnIndex = ColumnNameserver ∧ c.Op = INDEX_CONSTRAINT_EQ ∧
          c.Usable = true)) →
      (ResolverTable.BestIndex cs).2 =
        some (.sqlite SQLITE_CONSTRAINT "required constraints not met")) := by
  have hrej : ¬ (∀ c ∈ cs, ResolverTable.constrained c.ColumnIndex → c.Op = INDEX_CONSTRAINT_EQ) →
      ResolverTable.BestIndex cs =
        (none, some (.sqlite SQLITE_CONSTRAINT "only equals-to operation is supported")) := by
    intro h
    apply bestIndex_eq_of_reject
    push_neg at h
    obtain ⟨c, hc, h1, h2⟩ := h
    exact ⟨c, hc, h1, h2⟩
  have hany : ∀ hop : (∀ c ∈ cs, ResolverTable.constrained c.ColumnIndex → c.Op = INDEX_CONSTRAINT_EQ),
      ResolverTable.BestIndex cs =
        if (∃ c ∈ cs, c.ColumnIndex = ColumnDomain ∧ c.Op = INDEX_CONSTRAINT_EQ ∧ c.Usable = true) ∧
          (∃ c ∈ cs, c.ColumnIndex = ColumnNameserver ∧ c.Op = INDEX_CONSTRAINT_EQ ∧ c.Usable = true)
        then
          (some { ConstraintUsage := ResolverTable.usage 1 cs
                  IndexString := base64.StdEncoding.EncodeToString
                    ((cs.filter ResolverTable.accepted).map (fun c => byte c.ColumnIndex)) }, none)
        else
          (some { ConstraintUsage := ResolverTable.usage 1 cs, IndexString := "" },
            some (.sqlite SQLITE_CONSTRAINT "required constraints not met")) := by
    intro hop
    rw [bestIndex_eq_of_pass cs hop]
    simp only [List.any_eq_true, accepted_domain_iff, accepted_nameserver_iff]
  refine ⟨?_, hrej, ?_⟩
  · by_cases hop : ∀ c ∈ cs, ResolverTable.constrained c.ColumnIndex → c.Op = INDEX_CONSTRAINT_EQ
    · rw [hany hop]
      split_ifs with h
      · simp only [Option.isSome_some, true_and]
        exact ⟨fun _ => ⟨hop, h⟩, fun _ => trivial⟩
      · simp only [Option.isSome_some, true_and]
        constructor
        · intro h1; cases h1
        · intro h1; exact absurd h1.2 h
    · rw [hrej hop]
      simp [hop]
  · intro hop h
    rw [hany hop, if_neg h]

/-- The length of the usage list. -/
theorem usage_length (cs : List IndexConstraint) :
    ∀ argv : Int, (ResolverTable.usage argv cs).length = cs.length := by
  induction cs with
  | nil => intro argv; rfl
  | cons c cs ih =>
    intro argv
    unfold ResolverTable.usage
    split_ifs <;> simp [ih]

/-- The usage entry of constraint `i`: an accepted constraint gets the argument position
after those of the accepted constraints before it, and `Omit` exactly on the domain
column; any other constraint gets no entry. -/
theorem usage_getElem? (cs : List IndexConstraint) :
    ∀ (argv : Int) (i : Nat) (c : IndexConstraint), cs[i]? = some c →
      (ResolverTable.usage argv cs)[i]? = some
        (if ResolverTable.accepted c then
          some { ArgvIndex := argv + (((cs.take i).filter ResolverTable.accepted).length : Int)
                 Omit := decide (c.ColumnIndex = ColumnDomain) }
        else none) := by
  induction cs with
  | nil => intro argv i c h; simp at h
  | cons x cs ih =>
    intro argv i c h
    cases i with
    | zero =>
      simp only [List.getElem?_cons_zero, Option.some.injEq] at h
      subst h
      unfold ResolverTable.usage
      split_ifs <;> simp
    | succ i =>
      simp only [List.getElem?_cons_succ] at h
      unfold ResolverTable.usage
      by_cases hx : ResolverTable.accepted x = true
      · simp only [hx, if_true, List.getElem?_cons_succ, ih (argv + 1) i c h, List.take_succ_cons,
          List.filter_cons, List.length_cons]
        split_ifs
        · simp only [Option.some.injEq, ConstraintUsage.mk.injEq, and_true]
          push_cast
          omega
        · rfl
      · simp only [hx, if_false, List.getElem?_cons_succ, ih argv i c h, List.take_succ_cons,
          List.filter_cons, Bool.false_eq_true]

/-- **C5.** When `ResolverTable.BestIndex` rejects no operator, it returns an output whose
usage list has one entry per constraint: for a usable equality constraint on domain the
entry has `Omit = true`; for a usable equality constraint on nameserver, type or class the
entry has `Omit = false`; an unusable constraint or a constraint on another column has no
entry (`nil`). -/
theorem resolverTable_bestIndex_usage (cs : List IndexConstraint)
    (hop : ∀ c ∈ cs, ResolverTable.constrained c.ColumnIndex → c.Op = INDEX_CONSTRAINT_EQ) :
    ∃ out, (ResolverTable.BestIndex cs).1 = some out ∧
      out.ConstraintUsage.length = cs.length ∧
      ∀ (i : Nat) (c : IndexConstraint), cs[i]? = some c →
        (c.Usable = true → c.Op = INDEX_CONSTRAINT_EQ → c.ColumnIndex = ColumnDomain →
          ∃ k, out.ConstraintUsage[i]? = some (some { ArgvIndex := k, Omit := true })) ∧
        (c.Usable = true → c.Op = INDEX_CONSTRAINT_EQ →
          (c.ColumnIndex = ColumnNameserver ∨ c.ColumnIndex = ColumnType ∨
            c.ColumnIndex = ColumnClass) →
          ∃ k, out.ConstraintUsage[i]? = some (some { ArgvIndex := k, Omit := false })) ∧
        (c.Usable = false ∨ ¬ ResolverTable.constrained c.ColumnIndex →
          out.ConstraintUsage[i]? = some none) := by
  have hout : ∃ out, (ResolverTable.BestIndex cs).1 = some out ∧
      out.ConstraintUsage = ResolverTable.usage 1 cs := by
    rw [bestIndex_eq_of_pass cs hop]
    split_ifs <;> exact ⟨_, rfl, rfl⟩
  obtain ⟨out, h1, h2⟩ := hout
  refine ⟨out, h1, by rw [h2, usage_length], ?_⟩
  intro i c hc
  rw [h2, usage_getElem? cs 1 i c hc]
  refine ⟨?_, ?_, ?_⟩
  · intro hu he hd
    have : ResolverTable.accepted c = true := by
      simp [ResolverTable.accepted, ResolverTable.constrained, hu, he, hd]
    exact ⟨1 + (((cs.take i).filter ResolverTable.accepted).length : Int), by simp [this, hd]⟩
  · intro hu he hcol
    have hacc : ResolverTable.accepted c = true := by
      simp only [ResolverTable.accepted, ResolverTable.constrained, hu, he, Bool.and_eq_true,
        decide_eq_true_eq, true_and]
      tauto
    have hd : c.ColumnIndex ≠ ColumnDomain := by
      rcases hcol with h | h | h <;> rw [h] <;> decide
    exact ⟨1 + (((cs.take i).filter ResolverTable.accepted).length : Int), by simp [hacc, hd]⟩
  · intro h
    have hacc : ResolverTable.accepted c = false := by
      rcases h with h | h
      · simp [ResolverTable.accepted, h]
      · simp [ResolverTable.accepted, h]
    simp [hacc]

/-- Witness of C5: domain and nameserver bound, an unusable constraint on type and a
comparison on section. -/
theorem resolverTable_bestIndex_usage_witness :
    ResolverTable.BestIndex exampleConstraints =
      (some { ConstraintUsage := [some { ArgvIndex := 1, Omit := true },
                some { ArgvIndex := 2, Omit := false }, none, none],
              IndexString := "AAU=" }, none) ∧
    ∃ out, (ResolverTable.BestIndex exampleConstraints).1 = some out ∧
      out.ConstraintUsage.length = exampleConstraints.length ∧
      ∀ (i : Nat) (c : IndexConstraint), exampleConstraints[i]? = some c →
        (c.Usable = true → c.Op = INDEX_CONSTRAINT_EQ → c.ColumnIndex = ColumnDomain →
          ∃ k, out.ConstraintUsage[i]? = some (some { ArgvIndex := k, Omit := true })) ∧
        (c.Usable = true → c.Op = INDEX_CONSTRAINT_EQ →
          (c.ColumnIndex = ColumnNameserver ∨ c.ColumnIndex = ColumnType ∨
            c.ColumnIndex = ColumnClass) →
          ∃ k, out.ConstraintUsage[i]? = some (some { ArgvIndex := k, Omit := false })) ∧
        (c.Usable = false ∨ ¬ ResolverTable.constrained c.ColumnIndex →
          out.ConstraintUsage[i]? = some none) :=
  ⟨by decide, resolverTable_bestIndex_usage exampleConstraints (by decide)⟩


/-! ## Execution of the `dns` table -/

/-- Appending one tagged row per record of a section, in order. -/
theorem resolverCursor_foldl_eq (tag : String) (l : List RR) (cur : ResolverCursor) :
    l.foldl (fun c record => { c with records := c.records ++ [{ section_ := tag, record := record }] })
        cur =
      { cur with records := cur.records ++ l.map (fun r => { section_ := tag, record := r }) } := by
  induction l generalizing cur with
  | nil => simp
  | cons r l ih => simp [List.foldl_cons, ih]

/-- After `k` calls of `Next` only the position has changed: it has grown by `k`. -/
theorem resolverCursor_iterate_next (cur : ResolverCursor) (k : Nat) :
    ResolverCursor.Next^[k] cur = { cur with pos := cur.pos + k } := by
  induction k with
  | zero => simp
  | succ k ih =>
    rw [Function.iterate_succ_apply', ih]
    simp [ResolverCursor.Next, add_assoc]

/-- After `k` calls of `Next` only the position has changed: it has grown by `k`. -/
theorem searchListCursor_iterate_next (cur : SearchListCursor) (k : Nat) :
    SearchListCursor.Next^[k] cur = { cur with pos := cur.pos + k } := by
  induction k with
  | zero => simp
  | succ k ih =>
    rw [Function.iterate_succ_apply', ih]
    simp [SearchListCursor.Next, add_assoc]

/-- **C6.** When the bound values yield the variables `v`, a resolver is built for
`v.server` and its `Lookup` returns the message `msg` without error, `Filter` succeeds and
sets the row list to the records of `msg.Answer` tagged "answer", then those of `msg.Ns`
tagged "authority", then those of `msg.Extra` tagged "extra", each section in order (so
the list has `|Answer| + |Ns| + |Extra|` rows), sets the position to 0 and the nameserver
to the bound value `v.server`, which `Column` then reports as nameserver on every row. -/
theorem resolverCursor_filter_rows (lib : DnsLib) (w : World) (fuel : Nat)
    (cur : ResolverCursor) (str : String) (values : List Value) (tr : List Event)
    (v : FilterVars) (rslv rslv1 : Resolver) (msg : Msg) (tr1 : List Event)
    (hvars : ResolverCursor.Filter.loop (base64.StdEncoding.DecodeString str).1 0 values
      { server := "", domain := "", class_ := "IN", typ := "A" } = .ret v)
    (hnew : NewResolver w v.server = .ok rslv)
    (hlookup : Resolver.Lookup w fuel rslv
      { Name := v.domain, Qtype := lib.StringToType v.typ, Qclass := lib.StringToClass v.class_ }
      tr = .ret ((some msg, none), rslv1, tr1)) :
    ResolverCursor.Filter lib w fuel cur str values tr =
      .ret (({ ns := v.server, pos := 0
               records := rr.tag "answer" msg.Answer ++ rr.tag "authority" msg.Ns
                 ++ rr.tag "extra" msg.Extra }, none), tr1) ∧
    (rr.tag "answer" msg.Answer ++ rr.tag "authority" msg.Ns ++ rr.tag "extra" msg.Extra).length =
      msg.Answer.length + msg.Ns.length + msg.Extra.length ∧
    ∀ (encode : RR → Except Error (List Nat)) (k : Nat),
      k < msg.Answer.length + msg.Ns.length + msg.Extra.length →
      ResolverCursor.Column lib encode
        (ResolverCursor.Next^[k]
          { ns := v.server, pos := 0
            records := rr.tag "answer" msg.Answer ++ rr.tag "authority" msg.Ns
              ++ rr.tag "extra" msg.Extra })
        ColumnNameserver = .ret ([.ResultText v.server], none) := by
  have hlength : (rr.tag "answer" msg.Answer ++ rr.tag "authority" msg.Ns
      ++ rr.tag "extra" msg.Extra).length =
      msg.Answer.length + msg.Ns.length + msg.Extra.length := by
    simp [rr.tag, add_assoc]
  refine ⟨?_, hlength, ?_⟩
  · unfold ResolverCursor.Filter
    simp only [hvars, hnew, hlookup, resolverCursor_foldl_eq, List.nil_append, rr.tag,
      List.append_assoc]
  · intro encode k hk
    rw [resolverCursor_iterate_next]
    unfold ResolverCursor.Column
    rw [← hlength] at hk
    simp only [zero_add, Int.toNat_ofNat, List.get?_eq_getElem?, List.getElem?_eq_getElem hk]
    simp [ColumnNameserver, ColumnDomain, ColumnSection, ColumnClass, ColumnType, ColumnTTL]


/-- Witness of C6: plan `AAU=` (domain, nameserver), values `example.com.` and
`udp://1.1.1.1:53`, on a network that answers with `exampleMsg`. -/
theorem resolverCursor_filter_rows_witness :
    ResolverCursor.Filter (dns.lib (.ok exampleConfig)) (exampleWorld exampleAnswering) 1
        ResolverTable.Open "AAU="
        [{ Text := "example.com.", Int := 0 }, { Text := "udp://1.1.1.1:53", Int := 0 }] [] =
      .ret (({ ns := "udp://1.1.1.1:53", pos := 0
               records :=
                 [{ section_ := "answer", record := exampleRR "www.example.com." 5 "example.com." },
                  { section_ := "answer", record := exampleRR "example.com." 1 "192.0.2.1" },
                  { section_ := "authority", record := exampleRR "example.com." 2 "ns.example.com." },
                  { section_ := "extra", record := exampleRR "ns.example.com." 1 "192.0.2.53" }] },
              none),
            [Event.Exchange exampleResolver.client (newQuery 0 exampleQuestion) "1.1.1.1:53"]) :=
  (resolverCursor_filter_rows (dns.lib (.ok exampleConfig)) (exampleWorld exampleAnswering) 1
    ResolverTable.Open "AAU="
    [{ Text := "example.com.", Int := 0 }, { Text := "udp://1.1.1.1:53", Int := 0 }] []
    { server := "udp://1.1.1.1:53", domain := "example.com.", class_ := "IN", typ := "A" }
    (.classic exampleResolver) (.classic exampleResolver) exampleMsg
    [Event.Exchange exampleResolver.client (newQuery 0 exampleQuestion) "1.1.1.1:53"]
    (by decide) (by rfl) (by decide)).1

/-! ## Forward iteration of the two cursors -/

/-- A successful `Filter` of the `dns` cursor leaves the position at 0. -/
theorem resolverCursor_filter_ok_pos (lib : DnsLib) (w : World) (fuel : Nat)
    (cur : ResolverCursor) (str : String) (values : List Value) (tr : List Event)
    (rc : ResolverCursor) (tr1 : List Event)
    (h : ResolverCursor.Filter lib w fuel cur str values tr = .ret ((rc, none), tr1)) :
    rc.pos = 0 := by
  unfold ResolverCursor.Filter at h
  simp only [resolverCursor_foldl_eq] at h
  split at h
  · cases h
  · cases h
  · split at h
    · simp at h
    · split at h
      · cases h
      · cases h
      · simp at h
      · cases h
      · simp only [Run.ret.injEq, Prod.mk.injEq, and_true] at h
        rw [← h.1]

/-- A successful `Filter` of the `search` cursor leaves the position at 0. -/
theorem searchListCursor_filter_ok_pos (lib : DnsLib) (cur : SearchListCursor)
    (values : List Value) (sc : SearchListCursor)
    (h : SearchListCursor.Filter lib cur values = .ret (sc, none)) : sc.pos = 0 := by
  unfold SearchListCursor.Filter at h
  simp only [searchList_foldl_eq] at h
  split at h
  · cases h
  · split at h
    · simp only [Run.ret.injEq, Prod.mk.injEq, and_true] at h
      rw [← h]
    · split at h
      · simp at h
      · simp only [Run.ret.injEq, Prod.mk.injEq, and_true] at h
        rw [← h]
        split_ifs <;> rfl

/-- The forward protocol on the `dns` cursor from position `p` reads the positions
`p, p + 1, ..., N - 1`, each once. -/
theorem resolverCursor_visit_eq (steps : Nat) :
    ∀ (cur : ResolverCursor) (p : Nat), cur.pos = p → cur.records.length - p ≤ steps →
      ResolverCursor.visit steps cur =
        (List.range' p (cur.records.length - p)).map (fun i : Nat => (i : Int)) := by
  induction steps with
  | zero =>
    intro cur p _ hle
    have : cur.records.length - p = 0 := by omega
    simp [ResolverCursor.visit, this]
  | succ steps ih =>
    intro cur p hp hle
    unfold ResolverCursor.visit
    by_cases hlt : p < cur.records.length
    · have heof : cur.Eof = false := by
        simp only [ResolverCursor.Eof, hp, decide_eq_false_iff_not, ge_iff_le, not_le]
        exact_mod_cast hlt
      have hsplit : cur.records.length - p = (cur.records.length - (p + 1)) + 1 := by omega
      rw [heof, hsplit, List.range'_succ]
      simp only [Bool.false_eq_true, if_false, List.map_cons, hp, List.cons.injEq, true_and]
      exact ih cur.Next (p + 1) (by simp [ResolverCursor.Next, hp])
        (by simp only [ResolverCursor.Next]; omega)
    · have heof : cur.Eof = true := by
        simp only [ResolverCursor.Eof, hp, decide_eq_true_eq, ge_iff_le]
        exact_mod_cast (not_lt.mp hlt)
      have : cur.records.length - p = 0 := by omega
      simp [heof, this]

/-- The forward protocol on the `search` cursor from position `p` reads the positions
`p, p + 1, ..., N - 1`, each once. -/
theorem searchListCursor_visit_eq (steps : Nat) :
    ∀ (cur : SearchListCursor) (p : Nat), cur.pos = p → cur.fqdn.length - p ≤ steps →
      SearchListCursor.visit steps cur =
        (List.range' p (cur.fqdn.length - p)).map (fun i : Nat => (i : Int)) := by
  induction steps with
  | zero =>
    intro cur p _ hle
    have : cur.fqdn.length - p = 0 := by omega
    simp [SearchListCursor.visit, this]
  | succ steps ih =>
    intro cur p hp hle
    unfold SearchListCursor.visit
    by_cases hlt : p < cur.fqdn.length
    · have heof : cur.Eof = false := by
        simp only [SearchListCursor.Eof, hp, decide_eq_false_iff_not, ge_iff_le, not_le]
        exact_mod_cast hlt
      have hsplit : cur.fqdn.length - p = (cur.fqdn.length - (p + 1)) + 1 := by omega
      rw [heof, hsplit, List.range'_succ]
      simp only [Bool.false_eq_true, if_false, List.map_cons, hp, List.cons.injEq, true_and]
      exact ih cur.Next (p + 1) (by simp [SearchListCursor.Next, hp])
        (by simp only [SearchListCursor.Next]; omega)
    · have heof : cur.Eof = true := by
        simp only [SearchListCursor.Eof, hp, decide_eq_true_eq, ge_iff_le]
        exact_mod_cast (not_lt.mp hlt)
      have : cur.fqdn.length - p = 0 := by omega
      simp [heof, this]

/-- **C7.** After a successful `Filter` of either cursor that produced `N` rows: for every
`k`, after `k` calls of `Next` the position is `k` and `Eof` holds if and only if `k ≥ N`;
the forward protocol (read a row and call `Next` while `Eof` is false) reads exactly the
positions `0, 1, ..., N - 1`, each once and in order; and at each of these positions
`Column` does not panic on any column (its index is within bounds). -/
theorem cursors_forward_iteration (lib : DnsLib) (w : World) (fuel : Nat)
    (cur rc : ResolverCursor) (str : String) (values : List Value) (tr tr1 : List Event)
    (slib : DnsLib) (scur sc : SearchListCursor) (svalues : List Value)
    (hr : ResolverCursor.Filter lib w fuel cur str values tr = .ret ((rc, none), tr1))
    (hs : SearchListCursor.Filter slib scur svalues = .ret (sc, none)) :
    (∀ k : Nat, (ResolverCursor.Next^[k] rc).pos = k ∧
      ((ResolverCursor.Next^[k] rc).Eof = true ↔ k ≥ rc.records.length)) ∧
    (∀ k : Nat, (SearchListCursor.Next^[k] sc).pos = k ∧
      ((SearchListCursor.Next^[k] sc).Eof = true ↔ k ≥ sc.fqdn.length)) ∧
    (∀ steps ≥ rc.records.length,
      ResolverCursor.visit steps rc = (List.range rc.records.length).map (fun i : Nat => (i : Int))) ∧
    (∀ steps ≥ sc.fqdn.length,
      SearchListCursor.visit steps sc = (List.range sc.fqdn.length).map (fun i : Nat => (i : Int))) ∧
    (∀ k < rc.records.length, ∀ (encode : RR → Except Error (List Nat)) (col : Int) (m : String),
      ResolverCursor.Column lib encode (ResolverCursor.Next^[k] rc) col ≠ .panic m) ∧
    (∀ k < sc.fqdn.length, ∀ (col : Int) (m : String),
      SearchListCursor.Column (SearchListCursor.Next^[k] sc) col ≠ .panic m) := by
  have hrp := resolverCursor_filter_ok_pos lib w fuel cur str values tr rc tr1 hr
  have hsp := searchListCursor_filter_ok_pos slib scur svalues sc hs
  refine ⟨?_, ?_, ?_, ?_, ?_, ?_⟩
  · intro k
    rw [resolverCursor_iterate_next]
    simp [ResolverCursor.Eof, hrp]
  · intro k
    rw [searchListCursor_iterate_next]
    simp [SearchListCursor.Eof, hsp]
  · intro steps hsteps
    rw [resolverCursor_visit_eq steps rc 0 (by simp [hrp]) (by omega), List.range_eq_range']
    simp
  · intro steps hsteps
    rw [searchListCursor_visit_eq steps sc 0 (by simp [hsp]) (by omega), List.range_eq_range']
    simp
  · intro k hk encode col m
    rw [resolverCursor_iterate_next]
    unfold ResolverCursor.Column
    simp only [hrp, zero_add, Int.toNat_ofNat, List.get?_eq_getElem?, List.getElem?_eq_getElem hk]
    have : ¬ ((k : Int) < 0) := by omega
    simp only [this, if_false]
    split_ifs <;> first | exact (fun h => by cases h) | skip
    split <;> exact (fun h => by cases h)
  · intro k hk col m
    rw [searchListCursor_iterate_next]
    unfold SearchListCursor.Column
    simp only [hsp, zero_add, Int.toNat_ofNat, List.get?_eq_getElem?, List.getElem?_eq_getElem hk]
    have : ¬ ((k : Int) < 0) := by omega
    simp only [this, if_false]
    split_ifs <;> exact (fun h => by cases h)


/-- Witness of C7: the four rows of `exampleMsg` and the three candidates for `host`. -/
theorem cursors_forward_iteration_witness :
    ResolverCursor.visit 4 exampleRows = [0, 1, 2, 3] ∧
    SearchListCursor.visit 3 exampleCandidates = [0, 1, 2] ∧
    ((ResolverCursor.Next^[4] exampleRows).pos = 4 ∧
      ((ResolverCursor.Next^[4] exampleRows).Eof = true ↔ 4 ≥ exampleRows.records.length)) :=
  have h := cursors_forward_iteration (dns.lib (.ok exampleConfig)) (exampleWorld exampleAnswering) 1
    ResolverTable.Open exampleRows "AAU="
    [{ Text := "example.com.", Int := 0 }, { Text := "udp://1.1.1.1:53", Int := 0 }] []
    [Event.Exchange exampleResolver.client (newQuery 0 exampleQuestion) "1.1.1.1:53"]
    (dns.lib (.ok exampleConfig)) SearchListTable.Open exampleCandidates
    [{ Text := "host", Int := 0 }, { Text := "1", Int := 1 }]
    (by decide) (by decide)
  ⟨(h.2.2.1 4 (by decide)).trans (by decide), (h.2.2.2.1 3 (by decide)).trans (by decide), h.1 4⟩


/-! ## The classic resolver -/

/-- A first exchange that fails, or whose response is not truncated, is returned as it is
after that one exchange; the resolver is unchanged. -/
theorem classicLookup_no_retry (w : World) (fuel : Nat) (rslv : ClassicResolver)
    (ques : Question) (tr : List Event)
    (h : (w.Exchange tr rslv.client (newQuery (w.Id tr) ques) rslv.server).2 ≠ none ∨
      ∃ m, w.Exchange tr rslv.client (newQuery (w.Id tr) ques) rslv.server = (some m, none) ∧
        m.Truncated = false) :
    ClassicResolver.Lookup w (fuel + 1) rslv ques tr =
      .ret (w.Exchange tr rslv.client (newQuery (w.Id tr) ques) rslv.server, rslv,
        tr ++ [Event.Exchange rslv.client (newQuery (w.Id tr) ques) rslv.server]) := by
  unfold ClassicResolver.Lookup
  rcases h with h | ⟨m, hm, ht⟩
  · rcases hx : w.Exchange tr rslv.client (newQuery (w.Id tr) ques) rslv.server with ⟨a, b⟩
    rw [hx] at h
    cases b with
    | none => exact absurd rfl h
    | some e => cases a <;> simp only [hx]
  · simp only [hm, ht, Bool.false_eq_true, if_false]

/-- A first exchange whose response is truncated: the call is the nested call with the
transport mode set to "tcp", after which the mode is put back. -/
theorem classicLookup_retry (w : World) (fuel : Nat) (rslv : ClassicResolver)
    (ques : Question) (tr : List Event) (m : Msg)
    (h : w.Exchange tr rslv.client (newQuery (w.Id tr) ques) rslv.server = (some m, none))
    (ht : m.Truncated = true) :
    ClassicResolver.Lookup w (fuel + 1) rslv ques tr =
      match ClassicResolver.Lookup w fuel { rslv with client := { rslv.client with Net := "tcp" } }
          ques (tr ++ [Event.Exchange rslv.client (newQuery (w.Id tr) ques) rslv.server]) with
      | .ret (r, rslv2, tr2) =>
        .ret (r, { rslv2 with client := { rslv2.client with Net := rslv.client.Net } }, tr2)
      | .panic msg => .panic msg
      | .diverge => .diverge := by
  rw [ClassicResolver.Lookup]
  simp only [h, ht, if_true]


/-- On a network that marks every response truncated, `Lookup` never returns: whatever the
budget of nested calls, it is used up. -/
theorem classicLookup_diverges (w : World) (ques : Question)
    (hall : ∀ tr c q s, ∃ m, w.Exchange tr c q s = (some m, none) ∧ m.Truncated = true)
    (fuel : Nat) :
    ∀ (rslv : ClassicResolver) (tr : List Event),
      ClassicResolver.Lookup w fuel rslv ques tr = .diverge := by
  induction fuel with
  | zero => intro rslv tr; rfl
  | succ fuel ih =>
    intro rslv tr
    obtain ⟨m, hm, ht⟩ := hall tr rslv.client (newQuery (w.Id tr) ques) rslv.server
    rw [classicLookup_retry w fuel rslv ques tr m hm ht, ih]

/-- **C8 (amended).** A first exchange that fails or returns a response that is not
truncated causes no retry: `Lookup` returns that message and error unchanged after one
exchange. When the first response is truncated and the response to the retry fails or is
not truncated, `Lookup` performs exactly one retry, with the transport mode set to "tcp"
and against the same server, and returns the result of that retry: two exchanges in all.
(When the retry is answered with a truncated response again, `Lookup` retries again; see
`classicLookup_retry_counterexample`.) -/
theorem classicLookup_single_retry (w : World) (fuel : Nat) (rslv : ClassicResolver)
    (ques : Question) (tr : List Event) :
    (((w.Exchange tr rslv.client (newQuery (w.Id tr) ques) rslv.server).2 ≠ none ∨
        ∃ m, w.Exchange tr rslv.client (newQuery (w.Id tr) ques) rslv.server = (some m, none) ∧
          m.Truncated = false) →
      ClassicResolver.Lookup w (fuel + 1) rslv ques tr =
        .ret (w.Exchange tr rslv.client (newQuery (w.Id tr) ques) rslv.server, rslv,
          tr ++ [Event.Exchange rslv.client (newQuery (w.Id tr) ques) rslv.server])) ∧
    (∀ (m1 : Msg) (tr1 : List Event) (tcp : Client) (retry : Reply),
      w.Exchange tr rslv.client (newQuery (w.Id tr) ques) rslv.server = (some m1, none) →
      m1.Truncated = true →
      tr1 = tr ++ [Event.Exchange rslv.client (newQuery (w.Id tr) ques) rslv.server] →
      tcp = { rslv.client with Net := "tcp" } →
      retry = w.Exchange tr1 tcp (newQuery (w.Id tr1) ques) rslv.server →
      (retry.2 ≠ none ∨ ∃ m2, retry = (some m2, none) ∧ m2.Truncated = false) →
      ClassicResolver.Lookup w (fuel + 2) rslv ques tr =
        .ret (retry, rslv, tr1 ++ [Event.Exchange tcp (newQuery (w.Id tr1) ques) rslv.server])) := by
  refine ⟨classicLookup_no_retry w fuel rslv ques tr, ?_⟩
  intro m1 tr1 tcp retry h1 ht htr htcp hretry hok
  subst htr htcp hretry
  rw [classicLookup_retry w (fuel + 1) rslv ques tr m1 h1 ht,
    classicLookup_no_retry w fuel { rslv with client := { rslv.client with Net := "tcp" } } ques
      _ hok]

/-- Witness of C8 (amended): a first response truncated and the retry answered in full. -/
theorem classicLookup_single_retry_witness :
    ClassicResolver.Lookup (exampleWorld (exampleTruncating 1)) 2 exampleResolver exampleQuestion [] =
      .ret ((some exampleMsg, none), exampleResolver,
        [Event.Exchange { Net := "udp", TLSConfig := none } (newQuery 0 exampleQuestion) "1.1.1.1:53",
         Event.Exchange { Net := "tcp", TLSConfig := none } (newQuery 1 exampleQuestion) "1.1.1.1:53"]) :=
  (classicLookup_single_retry (exampleWorld (exampleTruncating 1)) 0 exampleResolver
    exampleQuestion []).2 { exampleMsg with Truncated := true }
    [Event.Exchange { Net := "udp", TLSConfig := none } (newQuery 0 exampleQuestion) "1.1.1.1:53"]
    { Net := "tcp", TLSConfig := none } (some exampleMsg, none)
    (by decide) (by decide) (by decide) (by decide) (by decide)
    (Or.inr ⟨exampleMsg, rfl, by decide⟩)

/-- **C8, counterexample.** On a network whose first two responses are truncated (the
second is the response to the retry over TCP), `Lookup` performs three exchanges, two of
them retries, and returns the third response, not the result of the first retry; and on
a network whose responses are all truncated it never returns, whatever the budget. -/
theorem classicLookup_retry_counterexample :
    (exampleTruncating 2 [] exampleResolver.client (newQuery 0 exampleQuestion) "1.1.1.1:53" =
      (some { exampleMsg with Truncated := true }, none)) ∧
    (exampleTruncating 2
        [Event.Exchange { Net := "udp", TLSConfig := none } (newQuery 0 exampleQuestion) "1.1.1.1:53"]
        { Net := "tcp", TLSConfig := none } (newQuery 1 exampleQuestion) "1.1.1.1:53" =
      (some { exampleMsg with Truncated := true }, none)) ∧
    ClassicResolver.Lookup (exampleWorld (exampleTruncating 2)) 3 exampleResolver exampleQuestion [] =
      .ret ((some exampleMsg, none), exampleResolver,
        [Event.Exchange { Net := "udp", TLSConfig := none } (newQuery 0 exampleQuestion) "1.1.1.1:53",
         Event.Exchange { Net := "tcp", TLSConfig := none } (newQuery 1 exampleQuestion) "1.1.1.1:53",
         Event.Exchange { Net := "tcp", TLSConfig := none } (newQuery 2 exampleQuestion) "1.1.1.1:53"]) ∧
    ClassicResolver.Lookup (exampleWorld (exampleTruncating 2)) 2 exampleResolver exampleQuestion [] =
      .diverge ∧
    ∀ fuel, ClassicResolver.Lookup (exampleWorld exampleTruncated) fuel exampleResolver
      exampleQuestion [] = .diverge := by
  refine ⟨by decide, by decide, by decide, by decide, ?_⟩
  intro fuel
  exact classicLookup_diverges (exampleWorld exampleTruncated) exampleQuestion
    (fun _ _ _ _ => ⟨{ exampleMsg with Truncated := true }, rfl, rfl⟩) fuel exampleResolver []

/-- **C9.** Whenever `Lookup` returns, with a message or with an error, after a retry or
without one, the resolver is as it was before the call: same transport mode
(`client.Net`), same TLS settings, same server address; and every exchange made during
the call was addressed to that server. -/
theorem classicLookup_restores_mode (w : World) (ques : Question) (fuel : Nat) :
    ∀ (rslv rslv1 : ClassicResolver) (tr tr1 : List Event) (reply : Reply),
      ClassicResolver.Lookup w fuel rslv ques tr = .ret (reply, rslv1, tr1) →
      rslv1.client.Net = rslv.client.Net ∧ rslv1.server = rslv.server ∧ rslv1 = rslv ∧
      ∃ evs, tr1 = tr ++ evs ∧ ∀ e ∈ evs, ∃ c q, e = Event.Exchange c q rslv.server := by
  induction fuel with
  | zero => intro rslv rslv1 tr tr1 reply h; cases h
  | succ fuel ih =>
    intro rslv rslv1 tr tr1 reply h
    by_cases hcase : (w.Exchange tr rslv.client (newQuery (w.Id tr) ques) rslv.server).2 ≠ none ∨
        ∃ m, w.Exchange tr rslv.client (newQuery (w.Id tr) ques) rslv.server = (some m, none) ∧
          m.Truncated = false
    · rw [classicLookup_no_retry w fuel rslv ques tr hcase] at h
      simp only [Run.ret.injEq, Prod.mk.injEq] at h
      obtain ⟨-, h2, h3⟩ := h
      subst h2 h3
      exact ⟨rfl, rfl, rfl, _, rfl, by simp⟩
    · rcases hx : w.Exchange tr rslv.client (newQuery (w.Id tr) ques) rslv.server with ⟨a, b⟩
      rw [hx] at hcase
      cases b with
      | some e => exact absurd (Or.inl (by simp)) hcase
      | none =>
        cases a with
        | none =>
          rw [ClassicResolver.Lookup] at h
          simp only [hx] at h
          cases h
        | some m =>
          have ht : m.Truncated = true := by
            cases hm : m.Truncated
            · exact absurd (Or.inr ⟨m, rfl, hm⟩) hcase
            · rfl
          rw [classicLookup_retry w fuel rslv ques tr m hx ht] at h
          split at h
          · rename_i r rslv2 tr2 hrec
            simp only [Run.ret.injEq, Prod.mk.injEq] at h
            obtain ⟨-, h2, h3⟩ := h
            obtain ⟨-, hs, hr, evs, hevs, hall⟩ := ih _ _ _ _ _ hrec
            subst h2 h3 hr
            refine ⟨rfl, rfl, rfl,
              Event.Exchange rslv.client (newQuery (w.Id tr) ques) rslv.server :: evs,
              by simp [hevs], ?_⟩
            intro e he
            rcases List.mem_cons.mp he with rfl | he
            · exact ⟨_, _, rfl⟩
            · exact hall e he
          · cases h
          · cases h

/-- Witness of C9: the run with one retry leaves the resolver in mode "udp". -/
theorem classicLookup_restores_mode_witness :
    ∃ rslv1 tr1 reply,
      ClassicResolver.Lookup (exampleWorld (exampleTruncating 1)) 2 exampleResolver
        exampleQuestion [] = .ret (reply, rslv1, tr1) ∧
      tr1.length = 2 ∧ rslv1.client.Net = "udp" ∧ rslv1.server = "1.1.1.1:53" :=
  ⟨exampleResolver,
    [Event.Exchange { Net := "udp", TLSConfig := none } (newQuery 0 exampleQuestion) "1.1.1.1:53",
     Event.Exchange { Net := "tcp", TLSConfig := none } (newQuery 1 exampleQuestion) "1.1.1.1:53"],
    (some exampleMsg, none), by decide, rfl,
    (classicLookup_restores_mode (exampleWorld (exampleTruncating 1)) exampleQuestion 2
      exampleResolver exampleResolver []
      [Event.Exchange { Net := "udp", TLSConfig := none } (newQuery 0 exampleQuestion) "1.1.1.1:53",
       Event.Exchange { Net := "tcp", TLSConfig := none } (newQuery 1 exampleQuestion) "1.1.1.1:53"]
      (some exampleMsg, none) (by decide)).1,
    rfl⟩

/-! ## The resolver factory -/

/-- **C10.** For an endpoint string that parses as the URL `remote`, `NewResolver` looks at
`remote.Scheme` only: for udp, tcp and tls it returns what `NewClassicResolver` returns
on `remote.String()`, for https what `NewHttpResolver` returns on it, and for any other
scheme, the empty one included, it returns no resolver and the error
"no registered resolver for %q protocol" formatted with that scheme. -/
theorem newResolver_dispatch (w : World) (server : String) (remote : URL)
    (hparse : w.Parse server = .ok remote) :
    ((remote.Scheme = "udp" ∨ remote.Scheme = "tcp" ∨ remote.Scheme = "tls") →
      NewResolver w server = (NewClassicResolver w (w.URLString remote)).map Resolver.classic) ∧
    (remote.Scheme = "https" →
      NewResolver w server = (NewHttpResolver w (w.URLString remote)).map Resolver.http) ∧
    (remote.Scheme ≠ "udp" → remote.Scheme ≠ "tcp" → remote.Scheme ≠ "tls" →
      remote.Scheme ≠ "https" →
      NewResolver w server =
        .error (.errorf "no registered resolver for %q protocol" [remote.Scheme])) := by
  unfold NewResolver
  simp only [hparse]
  refine ⟨?_, ?_, ?_⟩
  · intro h
    simp only [h, if_true]
  · intro h
    have h1 : ¬ (remote.Scheme = "udp" ∨ remote.Scheme = "tcp" ∨ remote.Scheme = "tls") := by
      rw [h]; decide
    rw [if_neg h1, if_pos h]
  · intro h1 h2 h3 h4
    simp only [h1, h2, h3, h4, or_self, if_false]

/-- Witness of C10: `udp://1.1.1.1:53` gives the classic resolver for `1.1.1.1:53`, and
`ftp://example.com:21` gives the error that names `ftp`. -/
theorem newResolver_dispatch_witness :
    NewResolver (exampleWorld exampleAnswering) "udp://1.1.1.1:53" =
      .ok (.classic exampleResolver) ∧
    NewResolver (exampleWorld exampleAnswering) "ftp://example.com:21" =
      .error (.errorf "no registered resolver for %q protocol" ["ftp"]) :=
  ⟨((newResolver_dispatch (exampleWorld exampleAnswering) "udp://1.1.1.1:53" exampleURL
      (by rfl)).1 (Or.inl rfl)).trans (by rfl),
    (newResolver_dispatch (exampleWorld exampleAnswering) "ftp://example.com:21" exampleFtpURL
      (by rfl)).2.2 (by decide) (by decide) (by decide) (by decide)⟩


/-! ## Construction of the classic resolver -/

/-- `NewClassicResolver` on an endpoint that parses: the two configuration errors on a
missing scheme, host or port, and otherwise the dispatch on the scheme and the
`hostname` parameter. -/
theorem newClassicResolver_eq (w : World) (s : String) (ep : URL)
    (hparse : w.Parse s = .ok ep) :
    NewClassicResolver w s =
      if ep.Scheme = "" ∨ w.Hostname ep = "" then .error (.errorf "invalid remote address: %s" [s])
      else if w.Port ep = "" then .error (.errorf "specify remote port for %s" [ep.Scheme])
      else if ep.Scheme = "tls" then
        if (w.Query ep).Has "hostname" = true then
          .ok { server := net.JoinHostPort (w.Hostname ep) (w.Port ep)
                client := { Net := "tcp-tls"
                            TLSConfig := some { ServerName := (w.Query ep).Get "hostname" } } }
        else .error (.errorf "provide 'hostname' for use with TLS" [])
      else
        .ok { server := net.JoinHostPort (w.Hostname ep) (w.Port ep)
              client := { Net := ep.Scheme, TLSConfig := none } } := by
  unfold NewClassicResolver
  simp only [hparse]
  split_ifs <;> simp_all

/-- **C11.** For an endpoint that parses with a non-empty host and port: with scheme tls,
`NewClassicResolver` fails if and only if the query carries no `hostname` parameter (the
error is "provide 'hostname' for use with TLS"), and when `hostname=v` is present it
returns a resolver with transport mode "tcp-tls" and TLS server name `v`; with scheme udp
or tcp it succeeds with the scheme as transport mode and no TLS configuration, whatever
the query holds. -/
theorem newClassicResolver_tls_hostname (w : World) (s : String) (ep : URL)
    (hparse : w.Parse s = .ok ep) (hhost : w.Hostname ep ≠ "") (hport : w.Port ep ≠ "") :
    (ep.Scheme = "tls" →
      ((∃ e, NewClassicResolver w s = .error e) ↔ (w.Query ep).Has "hostname" = false) ∧
      ((w.Query ep).Has "hostname" = false →
        NewClassicResolver w s = .error (.errorf "provide 'hostname' for use with TLS" [])) ∧
      (∀ v rest, (w.Query ep).lookup "hostname" = some (v :: rest) →
        NewClassicResolver w s =
          .ok { server := net.JoinHostPort (w.Hostname ep) (w.Port ep)
                client := { Net := "tcp-tls", TLSConfig := some { ServerName := v } } })) ∧
    ((ep.Scheme = "udp" ∨ ep.Scheme = "tcp") →
      NewClassicResolver w s =
        .ok { server := net.JoinHostPort (w.Hostname ep) (w.Port ep)
              client := { Net := ep.Scheme, TLSConfig := none } }) := by
  rw [newClassicResolver_eq w s ep hparse]
  refine ⟨?_, ?_⟩
  · intro htls
    have hs : ep.Scheme ≠ "" := by rw [htls]; decide
    simp only [hs, hhost, or_self, if_false, hport, htls, if_true]
    refine ⟨?_, ?_, ?_⟩
    · cases hq : (w.Query ep).Has "hostname" <;> simp
    · intro hq
      simp [hq]
    · intro v rest hv
      simp [Values.Has, Values.Get, hv]
  · intro hsch
    have hs : ep.Scheme ≠ "" := by rcases hsch with h | h <;> rw [h] <;> decide
    have ht : ep.Scheme ≠ "tls" := by rcases hsch with h | h <;> rw [h] <;> decide
    simp only [hs, hhost, or_self, if_false, hport, ht]

/-- Witness of C11: `hostname=example` gives the server name `example`; the same endpoint
without the parameter is refused; on a udp endpoint the parameter is ignored. -/
theorem newClassicResolver_tls_hostname_witness :
    NewClassicResolver exampleTlsWorld "tls://1.1.1.1:853?hostname=example" =
      .ok { server := "1.1.1.1:853"
            client := { Net := "tcp-tls", TLSConfig := some { ServerName := "example" } } } ∧
    NewClassicResolver exampleTlsWorld "tls://1.1.1.1:853" =
      .error (.errorf "provide 'hostname' for use with TLS" []) ∧
    NewClassicResolver exampleTlsWorld "udp://1.1.1.1:53?hostname=example" =
      .ok { server := "1.1.1.1:53", client := { Net := "udp", TLSConfig := none } } :=
  ⟨((newClassicResolver_tls_hostname exampleTlsWorld "tls://1.1.1.1:853?hostname=example"
      exampleTlsURL (by rfl) (by decide) (by decide)).1 rfl).2.2 "example" [] (by rfl),
    ((newClassicResolver_tls_hostname exampleTlsWorld "tls://1.1.1.1:853"
      { exampleTlsURL with RawQuery := "" } (by rfl) (by decide) (by decide)).1 rfl).2.1 (by rfl),
    (newClassicResolver_tls_hostname exampleTlsWorld "udp://1.1.1.1:53?hostname=example"
      exampleUdpHostnameURL (by rfl) (by decide) (by decide)).2 (Or.inl rfl)⟩


/-- **C12.** Let the endpoint string parse as `remote`, and let printing `remote` and
parsing it again (as `NewResolver` does before it calls `NewClassicResolver`) give a URL
`ep` with the same scheme, host and port. With scheme udp or tcp and a non-empty host and
port, `NewResolver` returns a classic resolver bound to `host:port`
(`net.JoinHostPort host port`) with the scheme as transport mode and no TLS setting. With
an empty scheme, or with scheme udp, tcp or tls and an empty host or an empty port,
`NewResolver` fails and returns no resolver. `NewClassicResolver` itself fails on every
endpoint whose scheme, host or port is empty. -/
theorem newResolver_classic (w : World) (server : String) (remote ep : URL)
    (hparse : w.Parse server = .ok remote)
    (hagain : w.Parse (w.URLString remote) = .ok ep)
    (hscheme : ep.Scheme = remote.Scheme) (hhost : w.Hostname ep = w.Hostname remote)
    (hport : w.Port ep = w.Port remote) :
    ((remote.Scheme = "udp" ∨ remote.Scheme = "tcp") → w.Hostname remote ≠ "" →
      w.Port remote ≠ "" →
      NewResolver w server =
        .ok (.classic { server := net.JoinHostPort (w.Hostname remote) (w.Port remote)
                        client := { Net := remote.Scheme, TLSConfig := none } })) ∧
    (remote.Scheme = "" →
      NewResolver w server = .error (.errorf "no registered resolver for %q protocol" [""])) ∧
    ((remote.Scheme = "udp" ∨ remote.Scheme = "tcp" ∨ remote.Scheme = "tls") →
      w.Hostname remote = "" →
      NewResolver w server =
        .error (.errorf "invalid remote address: %s" [w.URLString remote])) ∧
    ((remote.Scheme = "udp" ∨ remote.Scheme = "tcp" ∨ remote.Scheme = "tls") →
      w.Hostname remote ≠ "" → w.Port remote = "" →
      NewResolver w server =
        .error (.errorf "specify remote port for %s" [remote.Scheme])) ∧
    (∀ (s : String) (u : URL), w.Parse s = .ok u →
      ((u.Scheme = "" ∨ w.Hostname u = "") →
        NewClassicResolver w s = .error (.errorf "invalid remote address: %s" [s])) ∧
      (u.Scheme ≠ "" → w.Hostname u ≠ "" → w.Port u = "" →
        NewClassicResolver w s = .error (.errorf "specify remote port for %s" [u.Scheme]))) := by
  have hclassic : (remote.Scheme = "udp" ∨ remote.Scheme = "tcp" ∨ remote.Scheme = "tls") →
      NewResolver w server =
        (NewClassicResolver w (w.URLString remote)).map Resolver.classic := by
    intro h
    unfold NewResolver
    simp only [hparse, h, if_true]
  have hne : (remote.Scheme = "udp" ∨ remote.Scheme = "tcp" ∨ remote.Scheme = "tls") →
      remote.Scheme ≠ "" := by
    intro h
    rcases h with h | h | h <;> rw [h] <;> decide
  refine ⟨?_, ?_, ?_, ?_, ?_⟩
  · intro hsch hh hp
    have hsch3 : remote.Scheme = "udp" ∨ remote.Scheme = "tcp" ∨ remote.Scheme = "tls" := by
      rcases hsch with h | h
      · exact Or.inl h
      · exact Or.inr (Or.inl h)
    have htls : remote.Scheme ≠ "tls" := by rcases hsch with h | h <;> rw [h] <;> decide
    rw [hclassic hsch3, newClassicResolver_eq w _ ep hagain, hscheme, hhost, hport]
    simp only [hne hsch3, hh, or_self, if_false, hp, htls]
    rfl
  · intro hs
    unfold NewResolver
    simp only [hparse, hs]
    rfl
  · intro hsch hh
    rw [hclassic hsch, newClassicResolver_eq w _ ep hagain, hscheme, hhost]
    simp only [hh, or_true, if_true]
    rfl
  · intro hsch hh hp
    rw [hclassic hsch, newClassicResolver_eq w _ ep hagain, hscheme, hhost, hport]
    simp only [hne hsch, hh, or_self, if_false, hp, if_true]
    rfl
  · intro s u hu
    rw [newClassicResolver_eq w s u hu]
    refine ⟨?_, ?_⟩
    · intro h
      simp only [h, if_true]
    · intro h1 h2 h3
      simp only [h1, h2, or_self, if_false, h3, if_true]

/-- Witness of C12: `udp://1.1.1.1:53` gives the classic resolver for `1.1.1.1:53` in
mode "udp". -/
theorem newResolver_classic_witness :
    NewResolver (exampleWorld exampleAnswering) "udp://1.1.1.1:53" =
      .ok (.classic { server := "1.1.1.1:53", client := { Net := "udp", TLSConfig := none } }) :=
  (newResolver_classic (exampleWorld exampleAnswering) "udp://1.1.1.1:53" exampleURL exampleURL
    (by rfl) (by rfl) rfl rfl rfl).1 (Or.inl rfl) (by decide) (by decide)

/-! ## Failure of the `dns` cursor -/

/-- **C15.** Whatever the state of the cursor before the call: when no resolver can be
built for the bound server, `Filter` returns the error of `NewResolver`, and when `Lookup`
returns an error, `Filter` returns that error; in both cases the cursor is left as it was
(row list, position and nameserver). More generally every call of `Filter` that returns
an error leaves the cursor unchanged: rows are set only after `Lookup` has returned a
message and no error. -/
theorem resolverCursor_filter_failure (lib : DnsLib) (w : World) (fuel : Nat)
    (cur : ResolverCursor) (str : String) (values : List Value) (tr : List Event)
    (v : FilterVars)
    (hvars : ResolverCursor.Filter.loop (base64.StdEncoding.DecodeString str).1 0 values
      { server := "", domain := "", class_ := "IN", typ := "A" } = .ret v) :
    (∀ err, NewResolver w v.server = .error err →
      ResolverCursor.Filter lib w fuel cur str values tr = .ret ((cur, some err), tr)) ∧
    (∀ rslv rslv1 m err tr1, NewResolver w v.server = .ok rslv →
      Resolver.Lookup w fuel rslv
        { Name := v.domain, Qtype := lib.StringToType v.typ, Qclass := lib.StringToClass v.class_ }
        tr = .ret ((m, some err), rslv1, tr1) →
      ResolverCursor.Filter lib w fuel cur str values tr = .ret ((cur, some err), tr1)) ∧
    (∀ rc err tr1,
      ResolverCursor.Filter lib w fuel cur str values tr = .ret ((rc, some err), tr1) →
      rc = cur) := by
  refine ⟨?_, ?_, ?_⟩
  · intro err hnew
    unfold ResolverCursor.Filter
    simp only [hvars, hnew]
  · intro rslv rslv1 m err tr1 hnew hlookup
    unfold ResolverCursor.Filter
    simp only [hvars, hnew, hlookup]
  · intro rc err tr1 h
    unfold ResolverCursor.Filter at h
    simp only [hvars] at h
    split at h
    · simp only [Run.ret.injEq, Prod.mk.injEq] at h
      exact h.1.1.symm
    · split at h
      · cases h
      · cases h
      · simp only [Run.ret.injEq, Prod.mk.injEq] at h
        exact h.1.1.symm
      · cases h
      · simp at h


/-- Witness of C15: on a cursor that holds the rows of an earlier query, a server string
that does not parse and an exchange that times out both leave those rows in place. -/
theorem resolverCursor_filter_failure_witness :
    ResolverCursor.Filter (dns.lib (.ok exampleConfig)) (exampleWorld exampleFailing) 1
        exampleRows "AAU="
        [{ Text := "example.com.", Int := 0 }, { Text := "bogus", Int := 0 }] [] =
      .ret ((exampleRows, some (.foreign "parse error")), []) ∧
    ResolverCursor.Filter (dns.lib (.ok exampleConfig)) (exampleWorld exampleFailing) 1
        exampleRows "AAU="
        [{ Text := "example.com.", Int := 0 }, { Text := "udp://1.1.1.1:53", Int := 0 }] [] =
      .ret ((exampleRows, some (.foreign "i/o timeout")),
        [Event.Exchange exampleResolver.client (newQuery 0 exampleQuestion) "1.1.1.1:53"]) :=
  ⟨(resolverCursor_filter_failure (dns.lib (.ok exampleConfig)) (exampleWorld exampleFailing) 1
      exampleRows "AAU=" [{ Text := "example.com.", Int := 0 }, { Text := "bogus", Int := 0 }] []
      { server := "bogus", domain := "example.com.", class_ := "IN", typ := "A" }
      (by decide)).1 (.foreign "parse error") (by rfl),
    (resolverCursor_filter_failure (dns.lib (.ok exampleConfig)) (exampleWorld exampleFailing) 1
      exampleRows "AAU="
      [{ Text := "example.com.", Int := 0 }, { Text := "udp://1.1.1.1:53", Int := 0 }] []
      { server := "udp://1.1.1.1:53", domain := "example.com.", class_ := "IN", typ := "A" }
      (by decide)).2.1 (.classic exampleResolver) (.classic exampleResolver) none
      (.foreign "i/o timeout")
      [Event.Exchange exampleResolver.client (newQuery 0 exampleQuestion) "1.1.1.1:53"]
      (by rfl) (by decide)⟩


/-! ## The DNS-over-HTTPS resolver -/

/-- What `Lookup` does with the response it settles on, from the trace `tr2` on: the reply
and the events added. -/
theorem httpLookup_eq (w : World) (rslv : HttpResolver) (ques : Question) (tr : List Event)
    (buf : List Nat) (resp0 : Response)
    (hpack : w.Pack (newQuery (w.Id tr) ques) = .ok buf)
    (hpost : w.Post tr rslv.server "application/dns-message" buf = .ok resp0) :
    HttpResolver.Lookup w rslv ques tr =
      match (if resp0.StatusCode = 405 then
          match w.Parse rslv.server with
          | .error err =>
            ((.error err : Except Error Response),
              tr ++ [Event.Post rslv.server "application/dns-message" buf])
          | .ok u =>
            (w.Get (tr ++ [Event.Post rslv.server "application/dns-message" buf])
                (w.URLString
                  { u with RawQuery := "dns=" ++ base64.RawURLEncoding.EncodeToString buf }),
              tr ++ [Event.Post rslv.server "application/dns-message" buf] ++
                [Event.Get (w.URLString
                  { u with RawQuery := "dns=" ++ base64.RawURLEncoding.EncodeToString buf })])
        else (.ok resp0, tr ++ [Event.Post rslv.server "application/dns-message" buf])) with
      | (.error err, tr2) => ((none, some err), tr2)
      | (.ok resp, tr2) =>
        if resp.StatusCode ≠ 200 then
          ((none, some (.errorf "error from nameserver %s" [resp.Status])),
            tr2 ++ [Event.Close resp.Body])
        else
          match w.ReadAll tr2 resp.Body with
          | .error err => ((none, some err), tr2 ++ [Event.ReadAll resp.Body, Event.Close resp.Body])
          | .ok body =>
            match w.Unpack body with
            | .error err =>
              ((none, some (.wrapf err "failed to unpack" [])),
                tr2 ++ [Event.ReadAll resp.Body, Event.Close resp.Body])
            | .ok answer =>
              ((some answer, none), tr2 ++ [Event.ReadAll resp.Body, Event.Close resp.Body]) := by
  unfold HttpResolver.Lookup
  simp only [hpack, hpost]

/-- **C13.** Let the query pack to `buf` and the POST be answered with `resp0`. When
`resp0` has status 405 (and the endpoint of the resolver parses, as `u`), `Lookup` issues
exactly one GET and no further request: the trace is the POST, then the GET of `u` with
its raw query replaced by `dns=` followed by the unpadded base64url encoding of `buf`,
then only reads and closes of response bodies; when that GET is answered with status 200
and a body that unpacks, the unpacked message is returned; when it is answered with
another status, `Lookup` fails with "error from nameserver %s" formatted with the status
text. When `resp0` has any other status no GET is issued: after the POST the trace holds
only reads and closes, and a status other than 200 gives the same error. -/
theorem httpLookup_get_fallback (w : World) (rslv : HttpResolver) (ques : Question)
    (tr : List Event) (buf : List Nat) (resp0 : Response)
    (hpack : w.Pack (newQuery (w.Id tr) ques) = .ok buf)
    (hpost : w.Post tr rslv.server "application/dns-message" buf = .ok resp0) :
    (resp0.StatusCode = 405 → ∀ u target tr1, w.Parse rslv.server = .ok u →
      target = w.URLString
        { u with RawQuery := "dns=" ++ base64.RawURLEncoding.EncodeToString buf } →
      tr1 = tr ++ [Event.Post rslv.server "application/dns-message" buf] →
      (∃ tail, (HttpResolver.Lookup w rslv ques tr).2 = tr1 ++ [Event.Get target] ++ tail ∧
        ∀ e ∈ tail, (∃ b, e = Event.ReadAll b) ∨ (∃ b, e = Event.Close b)) ∧
      (∀ resp body answer, w.Get tr1 target = .ok resp → resp.StatusCode = 200 →
        w.ReadAll (tr1 ++ [Event.Get target]) resp.Body = .ok body →
        w.Unpack body = .ok answer →
        (HttpResolver.Lookup w rslv ques tr).1 = (some answer, none)) ∧
      (∀ resp, w.Get tr1 target = .ok resp → resp.StatusCode ≠ 200 →
        (HttpResolver.Lookup w rslv ques tr).1 =
          (none, some (.errorf "error from nameserver %s" [resp.Status])))) ∧
    (resp0.StatusCode ≠ 405 →
      (∃ tail, (HttpResolver.Lookup w rslv ques tr).2 =
          tr ++ [Event.Post rslv.server "application/dns-message" buf] ++ tail ∧
        ∀ e ∈ tail, (∃ b, e = Event.ReadAll b) ∨ (∃ b, e = Event.Close b)) ∧
      (resp0.StatusCode ≠ 200 →
        (HttpResolver.Lookup w rslv ques tr).1 =
          (none, some (.errorf "error from nameserver %s" [resp0.Status])))) := by
  rw [httpLookup_eq w rslv ques tr buf resp0 hpack hpost]
  refine ⟨?_, ?_⟩
  · intro h405 u target tr1 hu htarget htr1
    subst htarget htr1
    simp only [h405, if_true, hu]
    refine ⟨?_, ?_, ?_⟩
    · cases hget : w.Get (tr ++ [Event.Post rslv.server "application/dns-message" buf])
          (w.URLString { u with RawQuery := "dns=" ++ base64.RawURLEncoding.EncodeToString buf }) with
      | error err => exact ⟨[], by simp, by simp⟩
      | ok resp =>
        simp only []
        by_cases h200 : resp.StatusCode = 200
        · simp only [h200, ne_eq, not_true_eq_false, if_false]
          cases hread : w.ReadAll _ resp.Body with
          | error err =>
            exact ⟨[Event.ReadAll resp.Body, Event.Close resp.Body], by simp [hread], by simp⟩
          | ok body =>
            cases hun : w.Unpack body with
            | error err =>
              exact ⟨[Event.ReadAll resp.Body, Event.Close resp.Body], by simp [hun], by simp⟩
            | ok answer =>
              exact ⟨[Event.ReadAll resp.Body, Event.Close resp.Body], by simp [hun], by simp⟩
        · simp only [ne_eq, h200, not_false_eq_true, if_true]
          exact ⟨[Event.Close resp.Body], by simp, by simp⟩
    · intro resp body answer hget h200 hread hun
      simp only [hget, h200, ne_eq, not_true_eq_false, if_false, hread, hun]
    · intro resp hget h200
      simp only [hget, ne_eq, h200, not_false_eq_true, if_true]
  · intro h405
    simp only [h405, if_false]
    refine ⟨?_, ?_⟩
    · by_cases h200 : resp0.StatusCode = 200
      · simp only [h200, ne_eq, not_true_eq_false, if_false]
        cases hread : w.ReadAll _ resp0.Body with
        | error err =>
          exact ⟨[Event.ReadAll resp0.Body, Event.Close resp0.Body], by simp [hread], by simp⟩
        | ok body =>
          cases hun : w.Unpack body with
          | error err =>
            exact ⟨[Event.ReadAll resp0.Body, Event.Close resp0.Body], by simp [hun], by simp⟩
          | ok answer =>
            exact ⟨[Event.ReadAll resp0.Body, Event.Close resp0.Body], by simp [hun], by simp⟩
      · simp only [ne_eq, h200, not_false_eq_true, if_true]
        exact ⟨[Event.Close resp0.Body], by simp, by simp⟩
    · intro h200
      simp only [ne_eq, h200, not_false_eq_true, if_true]


/-- Witness of C13: the POST is answered with 405, the GET with 200 and a body that
unpacks to `exampleMsg`. -/
theorem httpLookup_get_fallback_witness :
    (HttpResolver.Lookup
        (exampleHttpWorld { StatusCode := 405, Status := "405 Method Not Allowed", Body := 1 }
          { StatusCode := 200, Status := "200 OK", Body := 2 })
        exampleHttpResolver exampleQuestion []).1 = (some exampleMsg, none) :=
  ((httpLookup_get_fallback
      (exampleHttpWorld { StatusCode := 405, Status := "405 Method Not Allowed", Body := 1 }
        { StatusCode := 200, Status := "200 OK", Body := 2 })
      exampleHttpResolver exampleQuestion [] [171, 205, 1]
      { StatusCode := 405, Status := "405 Method Not Allowed", Body := 1 } (by rfl) (by rfl)).1 rfl
      exampleHttpsURL "https://dns.example/dns-query?dns=q80B"
      [Event.Post "https://dns.example/dns-query" "application/dns-message" [171, 205, 1]]
      (by rfl) (by decide) (by decide)).2.1
    { StatusCode := 200, Status := "200 OK", Body := 2 } [1, 2, 3] exampleMsg
    (by rfl) rfl (by rfl) (by rfl)

/-- **C14, the run that breaks it.** The POST is answered with status 405 and the body
numbered 1, the GET with status 200 and the body numbered 2. `Lookup` returns the message;
body 2 has been read and closed, body 1 (the response to the POST) has not been closed. -/
theorem httpLookup_post_body_not_closed :
    HttpResolver.Lookup
        (exampleHttpWorld { StatusCode := 405, Status := "405 Method Not Allowed", Body := 1 }
          { StatusCode := 200, Status := "200 OK", Body := 2 })
        exampleHttpResolver exampleQuestion [] =
      ((some exampleMsg, none),
        [Event.Post "https://dns.example/dns-query" "application/dns-message" [171, 205, 1],
         Event.Get "https://dns.example/dns-query?dns=q80B",
         Event.ReadAll 2, Event.Close 2]) ∧
    Event.Close 1 ∉
      (HttpResolver.Lookup
        (exampleHttpWorld { StatusCode := 405, Status := "405 Method Not Allowed", Body := 1 }
          { StatusCode := 200, Status := "200 OK", Body := 2 })
        exampleHttpResolver exampleQuestion []).2 := by
  constructor <;> decide

/-- Without the fallback the one response obtained is closed on every return: when the
POST is answered with a status other than 405, the trace of `Lookup` ends with the close
of the body of that response. -/
theorem httpLookup_closes_post_body (w : World) (rslv : HttpResolver) (ques : Question)
    (tr : List Event) (buf : List Nat) (resp0 : Response)
    (hpack : w.Pack (newQuery (w.Id tr) ques) = .ok buf)
    (hpost : w.Post tr rslv.server "application/dns-message" buf = .ok resp0)
    (h405 : resp0.StatusCode ≠ 405) :
    (HttpResolver.Lookup w rslv ques tr).2.getLast? = some (Event.Close resp0.Body) := by
  rw [httpLookup_eq w rslv ques tr buf resp0 hpack hpost]
  simp only [h405, if_false]
  by_cases h200 : resp0.StatusCode = 200
  · simp only [h200, ne_eq, not_true_eq_false, if_false]
    cases hread : w.ReadAll _ resp0.Body with
    | error err => simp [hread]
    | ok body =>
      cases hun : w.Unpack body with
      | error err => simp [hun]
      | ok answer => simp [hun]
  · simp [h200]


/-! ## Planning of the `search` table -/

/-- The planning loop of the `search` table stops with the operator error as soon as a
constraint on `partial` or `ndots` has a non-equality operator. -/
theorem searchList_loop_reject (cs : List IndexConstraint) :
    ∀ (out : IndexInfoOutput) (dc : Bool) (i : Nat),
      (∃ c ∈ cs, (c.ColumnIndex = ColumnPartial ∨ c.ColumnIndex = ColumnNdots) ∧
        c.Op ≠ INDEX_CONSTRAINT_EQ) →
      SearchListTable.BestIndex.loop out dc i cs =
        .error (.sqlite SQLITE_CONSTRAINT "only equals-to operation is supported") := by
  induction cs with
  | nil => intro out dc i h; simp at h
  | cons c cs ih =>
    intro out dc i h
    unfold SearchListTable.BestIndex.loop
    by_cases hcol : c.ColumnIndex = ColumnPartial ∨ c.ColumnIndex = ColumnNdots
    · by_cases hop : c.Op = INDEX_CONSTRAINT_EQ
      · simp only [hcol, if_true, hop, ne_eq, not_true_eq_false, if_false]
        obtain ⟨x, hx, hbad⟩ := h
        rcases List.mem_cons.mp hx with rfl | hx
        · exact absurd hop hbad.2
        · exact ih _ _ _ ⟨x, hx, hbad⟩
      · simp only [hcol, if_true, ne_eq, hop, not_false_eq_true]
    · simp only [hcol, if_false]
      obtain ⟨x, hx, hbad⟩ := h
      rcases List.mem_cons.mp hx with rfl | hx
      · exact absurd hbad.1 hcol
      · exact ih _ _ _ ⟨x, hx, hbad⟩

/-- The planning loop of the `search` table on constraints none of which is rejected:
the usage entries written and the final value of `domainConstrained`, which is set by any
constraint on `partial`, usable or not. -/
theorem searchList_loop_pass (cs : List IndexConstraint) :
    ∀ (out : IndexInfoOutput) (dc : Bool) (i : Nat) (pre : List (Option ConstraintUsage)),
      (∀ c ∈ cs, (c.ColumnIndex = ColumnPartial ∨ c.ColumnIndex = ColumnNdots) →
        c.Op = INDEX_CONSTRAINT_EQ) →
      out.ConstraintUsage = pre ++ List.replicate cs.length none →
      pre.length = i →
      SearchListTable.BestIndex.loop out dc i cs = .ok
        ({ out with ConstraintUsage := pre ++ SearchListTable.usage cs },
          dc || cs.any (fun c => decide (c.ColumnIndex = ColumnPartial))) := by
  induction cs with
  | nil =>
    intro out dc i pre _ hu _
    simp only [List.length_nil, List.replicate_zero, List.append_nil] at hu
    simp [SearchListTable.BestIndex.loop, SearchListTable.usage, ← hu]
  | cons c cs ih =>
    intro out dc i pre hop hu hlen
    unfold SearchListTable.BestIndex.loop
    have hop1 : ∀ x ∈ cs, (x.ColumnIndex = ColumnPartial ∨ x.ColumnIndex = ColumnNdots) →
        x.Op = INDEX_CONSTRAINT_EQ := fun x hx => hop x (List.mem_cons_of_mem _ hx)
    have hset : ∀ e : Option ConstraintUsage,
        out.ConstraintUsage.set i e = (pre ++ [e]) ++ List.replicate cs.length none := by
      intro e
      rw [hu, List.set_append_right _ _ (by omega)]
      simp [hlen, List.replicate_succ]
    have hkeep : out.ConstraintUsage = (pre ++ [none]) ++ List.replicate cs.length none := by
      rw [hu]; simp [List.replicate_succ]
    by_cases hcol : c.ColumnIndex = ColumnPartial ∨ c.ColumnIndex = ColumnNdots
    · have heq := hop c (List.mem_cons_self _ _) hcol
      simp only [hcol, if_true, heq, ne_eq, not_true_eq_false, if_false, true_and]
      cases husable : c.Usable
      · simp only [Bool.false_eq_true, if_false]
        rw [ih out _ (i + 1) (pre ++ [none]) hop1 hkeep (by simp [hlen])]
        by_cases hp : c.ColumnIndex = ColumnPartial <;>
          simp [SearchListTable.usage, husable, hp]
      · simp only [if_true]
        rw [ih _ _ (i + 1) (pre ++ [some { ArgvIndex := c.ColumnIndex + 1, Omit := false }]) hop1
          (hset _) (by simp [hlen])]
        by_cases hp : c.ColumnIndex = ColumnPartial
        · simp [SearchListTable.usage, husable, hp]
        · have hn : c.ColumnIndex = ColumnNdots := hcol.resolve_left hp
          simp [SearchListTable.usage, husable, hn, (by decide : ColumnNdots ≠ ColumnPartial)]
    · simp only [hcol, if_false]
      rw [ih out dc (i + 1) (pre ++ [none]) hop1 hkeep (by simp [hlen])]
      have hp : c.ColumnIndex ≠ ColumnPartial := fun h => hcol (Or.inl h)
      have hn : c.ColumnIndex ≠ ColumnNdots := fun h => hcol (Or.inr h)
      simp [SearchListTable.usage, hp, hn]

/-- What holds of `SearchListTable.BestIndex`: it rejects a non-equality operator on
`partial` or `ndots`; otherwise it fails with "partial domain value must be provided"
when no constraint on `partial` is offered, and succeeds as soon as one is offered,
usable or not; a usable constraint on `partial` is bound to argument position 1 and a
usable constraint on `ndots` to argument position 2. -/
theorem searchListTable_bestIndex_eq (cs : List IndexConstraint) :
    SearchListTable.BestIndex cs =
      if ∃ c ∈ cs, (c.ColumnIndex = ColumnPartial ∨ c.ColumnIndex = ColumnNdots) ∧
          c.Op ≠ INDEX_CONSTRAINT_EQ then
        (none, some (.sqlite SQLITE_CONSTRAINT "only equals-to operation is supported"))
      else if ∃ c ∈ cs, c.ColumnIndex = ColumnPartial then
        (some { ConstraintUsage := SearchListTable.usage cs, IndexString := "" }, none)
      else (none, some (.sqlite SQLITE_CONSTRAINT "partial domain value must be provided")) := by
  unfold SearchListTable.BestIndex
  by_cases hbad : ∃ c ∈ cs, (c.ColumnIndex = ColumnPartial ∨ c.ColumnIndex = ColumnNdots) ∧
      c.Op ≠ INDEX_CONSTRAINT_EQ
  · simp only [searchList_loop_reject cs _ false 0 hbad, if_pos hbad]
  · have hop : ∀ c ∈ cs, (c.ColumnIndex = ColumnPartial ∨ c.ColumnIndex = ColumnNdots) →
        c.Op = INDEX_CONSTRAINT_EQ := by
      intro c hc hcol
      by_contra hne
      exact hbad ⟨c, hc, hcol, hne⟩
    have hloop := searchList_loop_pass cs
      { ConstraintUsage := List.replicate cs.length none, IndexString := "" } false 0 [] hop
      (by simp) rfl
    simp only [hloop, if_neg hbad, Bool.false_or, List.nil_append]
    by_cases hp : ∃ c ∈ cs, c.ColumnIndex = ColumnPartial
    · have hany : cs.any (fun c => decide (c.ColumnIndex = ColumnPartial)) = true := by
        simpa [List.any_eq_true] using hp
      simp only [hany, Bool.not_true, Bool.false_eq_true, if_false, if_pos hp]
    · have hany : cs.any (fun c => decide (c.ColumnIndex = ColumnPartial)) = false := by
        rw [Bool.eq_false_iff]
        intro h
        apply hp
        simpa [List.any_eq_true] using h
      simp only [hany, Bool.not_false, if_true, if_neg hp]

/-- **C16, the input that breaks it.** An equality constraint on `partial` that is not
usable is enough for `SearchListTable.BestIndex` to succeed: it returns a plan and no
error although `partial` is bound to no argument position; with a usable constraint on
`ndots` next to it, position 2 is bound and position 1 is not. `Filter` then has no value
for the name: with no value it panics, and with the one value of `ndots` it takes that
value for the name. (`ResolverTable.BestIndex` refuses the like input: a domain
constraint that is not usable gives "required constraints not met".) -/
theorem searchListTable_bestIndex_unusable_partial :
    SearchListTable.BestIndex [{ ColumnIndex := 0, Op := 2, Usable := false }] =
      (some { ConstraintUsage := [none], IndexString := "" }, none) ∧
    SearchListTable.BestIndex
        [{ ColumnIndex := 0, Op := 2, Usable := false }, { ColumnIndex := 1, Op := 2, Usable := true }] =
      (some { ConstraintUsage := [none, some { ArgvIndex := 2, Omit := false }], IndexString := "" },
        none) ∧
    SearchListCursor.Filter (dns.lib (.ok exampleConfig)) SearchListTable.Open [] =
      .panic "index out of range [0] with length 0" ∧
    SearchListCursor.Filter (dns.lib (.ok exampleConfig)) SearchListTable.Open
        [{ Text := "2", Int := 2 }] =
      .ret ({ pos := 0, partial_ := "2", ndots := 1,
              fqdn := ["2.example.com.", "2.corp.", "2."] }, none) ∧
    ResolverTable.BestIndex
        [{ ColumnIndex := 0, Op := 2, Usable := false }, { ColumnIndex := 5, Op := 2, Usable := true }] =
      (some { ConstraintUsage := [none, some { ArgvIndex := 1, Omit := false }], IndexString := "" },
        some (.sqlite SQLITE_CONSTRAINT "required constraints not met")) := by
  refine ⟨?_, ?_, ?_, ?_, ?_⟩ <;> decide

/-- **C20, the run that breaks it.** `Filter` for `host` with ndots 1 on a freshly opened
cursor leaves three candidates; the same call again on that cursor leaves six: the three
of the first call followed by the three of the second. -/
theorem searchList_filter_twice :
    SearchListCursor.Filter (dns.lib (.ok exampleConfig)) SearchListTable.Open
        [{ Text := "host", Int := 0 }, { Text := "1", Int := 1 }] =
      .ret (exampleCandidates, none) ∧
    SearchListCursor.Filter (dns.lib (.ok exampleConfig)) exampleCandidates
        [{ Text := "host", Int := 0 }, { Text := "1", Int := 1 }] =
      .ret ({ pos := 0, partial_ := "host", ndots := 1,
              fqdn := ["host.example.com.", "host.corp.", "host.",
                       "host.example.com.", "host.corp.", "host."] }, none) := by
  constructor <;> decide


/-! ## The plan string: base64 there and back -/

/-- The decode map sends the `i`-th character of the standard alphabet back to `i`. -/
theorem base64_decodeMap_encodeStd :
    ∀ i < 64, base64.decodeMap (base64.encodeStd.getD i 'A') = some i := by
  decide

/-- The padding character is not in the alphabet. -/
theorem base64_decodeMap_pad : base64.decodeMap '=' = none := by
  decide

/-- One step of `decodeQuantum` on a character of the alphabet. -/
theorem base64_decodeQuantum_cons (dbuf : List Nat) (c : Char) (v : Nat) (cs : List Char)
    (h : base64.decodeMap c = some v) :
    base64.decodeQuantum dbuf (c :: cs) =
      if dbuf.length + 1 = 4 then ⟨cs, base64.Quantum.convert (dbuf ++ [v]) 4, false⟩
      else base64.decodeQuantum (dbuf ++ [v]) cs := by
  rw [base64.decodeQuantum]
  simp only [h]

/-- Four characters of the alphabet decode to the three bytes of their 24 bits. -/
theorem base64_decodeQuantum_full (c1 c2 c3 c4 : Char) (i1 i2 i3 i4 : Nat)
    (h1 : base64.decodeMap c1 = some i1) (h2 : base64.decodeMap c2 = some i2)
    (h3 : base64.decodeMap c3 = some i3) (h4 : base64.decodeMap c4 = some i4)
    (rest : List Char) :
    base64.decodeQuantum [] (c1 :: c2 :: c3 :: c4 :: rest) =
      ⟨rest, base64.Quantum.convert [i1, i2, i3, i4] 4, false⟩ := by
  rw [base64_decodeQuantum_cons _ _ _ _ h1, if_neg (by simp),
    base64_decodeQuantum_cons _ _ _ _ h2, if_neg (by simp),
    base64_decodeQuantum_cons _ _ _ _ h3, if_neg (by simp),
    base64_decodeQuantum_cons _ _ _ _ h4, if_pos (by simp)]
  rfl

/-- Three characters of the alphabet and one padding character decode to two bytes. -/
theorem base64_decodeQuantum_pad1 (c1 c2 c3 : Char) (i1 i2 i3 : Nat)
    (h1 : base64.decodeMap c1 = some i1) (h2 : base64.decodeMap c2 = some i2)
    (h3 : base64.decodeMap c3 = some i3) :
    base64.decodeQuantum [] [c1, c2, c3, '='] =
      ⟨[], base64.Quantum.convert [i1, i2, i3] 3, false⟩ := by
  rw [base64_decodeQuantum_cons _ _ _ _ h1, if_neg (by simp),
    base64_decodeQuantum_cons _ _ _ _ h2, if_neg (by simp),
    base64_decodeQuantum_cons _ _ _ _ h3, if_neg (by simp)]
  rw [base64.decodeQuantum]
  simp [base64_decodeMap_pad, base64.skipNewlines]

/-- Two characters of the alphabet and two padding characters decode to one byte. -/
theorem base64_decodeQuantum_pad2 (c1 c2 : Char) (i1 i2 : Nat)
    (h1 : base64.decodeMap c1 = some i1) (h2 : base64.decodeMap c2 = some i2) :
    base64.decodeQuantum [] [c1, c2, '=', '='] =
      ⟨[], base64.Quantum.convert [i1, i2] 2, false⟩ := by
  rw [base64_decodeQuantum_cons _ _ _ _ h1, if_neg (by simp),
    base64_decodeQuantum_cons _ _ _ _ h2, if_neg (by simp)]
  rw [base64.decodeQuantum]
  simp [base64_decodeMap_pad, base64.skipNewlines]

/-- The 24 bits of three bytes, cut into four 6-bit values and put together again. -/
theorem base64_convert_full (a b c : Nat) (ha : a < 256) (hb : b < 256) (hc : c < 256) :
    base64.Quantum.convert
        [(a * 65536 + b * 256 + c) / 262144 % 64, (a * 65536 + b * 256 + c) / 4096 % 64,
          (a * 65536 + b * 256 + c) / 64 % 64, (a * 65536 + b * 256 + c) % 64] 4 = [a, b, c] := by
  simp only [base64.Quantum.convert, List.getD_cons_zero, List.getD_cons_succ, Nat.add_one_sub_one,
    List.take_succ_cons, List.take_zero, List.cons.injEq, and_true]
  refine ⟨?_, ?_, ?_⟩ <;> omega

/-- Two bytes, cut into three 6-bit values and put together again. -/
theorem base64_convert_pad1 (a b : Nat) (ha : a < 256) (hb : b < 256) :
    base64.Quantum.convert
        [(a * 65536 + b * 256) / 262144 % 64, (a * 65536 + b * 256) / 4096 % 64,
          (a * 65536 + b * 256) / 64 % 64] 3 = [a, b] := by
  simp only [base64.Quantum.convert, List.getD_cons_zero, List.getD_cons_succ, List.getD_nil,
    Nat.add_one_sub_one, List.take_succ_cons, List.take_zero, List.cons.injEq, and_true]
  refine ⟨?_, ?_⟩ <;> omega

/-- One byte, cut into two 6-bit values and put together again. -/
theorem base64_convert_pad2 (a : Nat) (ha : a < 256) :
    base64.Quantum.convert [(a * 65536) / 262144 % 64, (a * 65536) / 4096 % 64] 2 = [a] := by
  simp only [base64.Quantum.convert, List.getD_cons_zero, List.getD_cons_succ, List.getD_nil,
    Nat.add_one_sub_one, List.take_succ_cons, List.take_zero, List.cons.injEq, and_true]
  omega


/-- The loop of `Decode` on an encoded list of bytes gives back the bytes and no error,
when it may run one quantum for every three bytes. -/
theorem base64_decode_encode (n : Nat) :
    ∀ (bytes : List Nat) (fuel : Nat) (acc : List Nat), bytes.length ≤ n →
      (∀ x ∈ bytes, x < 256) → bytes.length ≤ 3 * fuel →
      base64.Decode fuel (base64.Encode base64.encodeStd (some '=') bytes) acc =
        (acc ++ bytes, false) := by
  induction n using Nat.strong_induction_on with
  | _ n ih =>
    intro bytes fuel acc hn hlt hfuel
    match bytes, fuel with
    | [], 0 => simp [base64.Decode]
    | [], fuel + 1 => simp [base64.Decode, base64.Encode]
    | [a], 0 => simp at hfuel
    | [a, b], 0 => simp at hfuel
    | a :: b :: c :: rest, 0 => simp at hfuel
    | [a], fuel + 1 =>
      have ha : a < 256 := hlt a (by simp)
      have h1 := base64_decodeMap_encodeStd (a * 65536 / 262144 % 64) (by omega)
      have h2 := base64_decodeMap_encodeStd (a * 65536 / 4096 % 64) (by omega)
      rw [base64.Decode]
      simp only [base64.Encode, List.cons_append, List.nil_append, List.isEmpty_cons,
        Bool.false_eq_true, if_false, base64_decodeQuantum_pad2 _ _ _ _ h1 h2,
        base64_convert_pad2 a ha]
      cases fuel <;> simp [base64.Decode]
    | [a, b], fuel + 1 =>
      have ha : a < 256 := hlt a (by simp)
      have hb : b < 256 := hlt b (by simp)
      have h1 := base64_decodeMap_encodeStd ((a * 65536 + b * 256) / 262144 % 64) (by omega)
      have h2 := base64_decodeMap_encodeStd ((a * 65536 + b * 256) / 4096 % 64) (by omega)
      have h3 := base64_decodeMap_encodeStd ((a * 65536 + b * 256) / 64 % 64) (by omega)
      rw [base64.Decode]
      simp only [base64.Encode, List.cons_append, List.nil_append, List.isEmpty_cons,
        Bool.false_eq_true, if_false, base64_decodeQuantum_pad1 _ _ _ _ _ _ h1 h2 h3,
        base64_convert_pad1 a b ha hb]
      cases fuel <;> simp [base64.Decode]
    | a :: b :: c :: rest, fuel + 1 =>
      have ha : a < 256 := hlt a (by simp)
      have hb : b < 256 := hlt b (by simp)
      have hc : c < 256 := hlt c (by simp)
      have h1 := base64_decodeMap_encodeStd ((a * 65536 + b * 256 + c) / 262144 % 64) (by omega)
      have h2 := base64_decodeMap_encodeStd ((a * 65536 + b * 256 + c) / 4096 % 64) (by omega)
      have h3 := base64_decodeMap_encodeStd ((a * 65536 + b * 256 + c) / 64 % 64) (by omega)
      have h4 := base64_decodeMap_encodeStd ((a * 65536 + b * 256 + c) % 64) (by omega)
      rw [base64.Decode]
      simp only [base64.Encode, List.isEmpty_cons, Bool.false_eq_true, if_false,
        base64_decodeQuantum_full _ _ _ _ _ _ _ _ h1 h2 h3 h4, base64_convert_full a b c ha hb hc]
      simp only [List.length_cons] at hn hfuel
      rw [ih rest.length (by omega) rest fuel (acc ++ [a, b, c]) (le_refl _)
        (fun x hx => hlt x (by simp [hx])) (by omega)]
      simp

/-- The encoding is at least a third as long as the bytes encoded. -/
theorem base64_encode_length (n : Nat) :
    ∀ l : List Nat, l.length ≤ n →
      l.length ≤ 3 * (base64.Encode base64.encodeStd (some '=') l).length := by
  induction n using Nat.strong_induction_on with
  | _ n ih =>
    intro l hn
    match l with
    | [] => simp
    | [a] => simp [base64.Encode]
    | [a, b] => simp [base64.Encode]
    | a :: b :: c :: rest =>
      simp only [List.length_cons] at hn
      have := ih rest.length (by omega) rest (le_refl _)
      simp only [base64.Encode, List.length_cons]
      omega

/-- **Round trip of the plan string.** Decoding the standard base64 encoding of a list of
bytes gives back the list, with no error. -/
theorem base64_decodeString_encodeToString (bytes : List Nat) (hlt : ∀ x ∈ bytes, x < 256) :
    base64.StdEncoding.DecodeString (base64.StdEncoding.EncodeToString bytes) = (bytes, false) := by
  unfold base64.StdEncoding.DecodeString base64.StdEncoding.EncodeToString
  have h := base64_decode_encode bytes.length bytes
    (base64.Encode base64.encodeStd (some '=') bytes).length [] (le_refl _) hlt
    (base64_encode_length bytes.length bytes (le_refl _))
  simpa using h


/-! ## Binding of the arguments of the `dns` cursor -/

/-- The value bound to a role, one argument at a time: a later argument with the role
replaces an earlier one. -/
theorem bound_cons (b : Nat) (bs : List Nat) (x : Value) (xs : List Value) (col : Int)
    (dflt : String) :
    ResolverCursor.bound (b :: bs) (x :: xs) col dflt =
      ResolverCursor.bound bs xs col (if (b : Int) = col then x.Text else dflt) := by
  unfold ResolverCursor.bound
  simp only [List.zip_cons_cons, List.filter_cons]
  by_cases hb : (b : Int) = col
  · simp only [hb, decide_True, if_true]
    cases hrest : (bs.zip xs).filter (fun p => decide ((p.1 : Int) = col)) with
    | nil => simp
    | cons y ys =>
      rw [List.getLast?_cons_cons]
      cases hl : (y :: ys).getLast? with
      | none => simp [List.getLast?_eq_none_iff] at hl
      | some p => rfl
  · simp only [hb, decide_False, Bool.false_eq_true, if_false]

/-- The loop over the arguments, from index `n`: it does not panic when the plan has a
byte for every argument, and it leaves in each variable the value bound to its role. -/
theorem resolverCursor_loop_eq (bitmap : List Nat) :
    ∀ (values : List Value) (n : Nat) (v : FilterVars), n + values.length ≤ bitmap.length →
      ResolverCursor.Filter.loop bitmap n values v = .ret
        { server := ResolverCursor.bound (bitmap.drop n) values ColumnNameserver v.server
          domain := ResolverCursor.bound (bitmap.drop n) values ColumnDomain v.domain
          class_ := ResolverCursor.bound (bitmap.drop n) values ColumnClass v.class_
          typ := ResolverCursor.bound (bitmap.drop n) values ColumnType v.typ } := by
  intro values
  induction values with
  | nil =>
    intro n v _
    simp [ResolverCursor.Filter.loop, ResolverCursor.bound]
  | cons x xs ih =>
    intro n v hlen
    simp only [List.length_cons] at hlen
    have hn : n < bitmap.length := by omega
    rw [ResolverCursor.Filter.loop, List.get?_eq_getElem?, List.getElem?_eq_getElem hn,
      List.drop_eq_getElem_cons hn]
    simp only [bound_cons]
    rw [ih (n + 1) _ (by omega)]
    have h05 : ColumnDomain ≠ ColumnNameserver := by decide
    have h03 : ColumnDomain ≠ ColumnType := by decide
    have h02 : ColumnDomain ≠ ColumnClass := by decide
    have h35 : ColumnType ≠ ColumnNameserver := by decide
    have h32 : ColumnType ≠ ColumnClass := by decide
    have h25 : ColumnClass ≠ ColumnNameserver := by decide
    by_cases c0 : (bitmap[n] : Int) = ColumnDomain
    · simp [c0, h05, h03, h02]
    · by_cases c3 : (bitmap[n] : Int) = ColumnType
      · simp [c3, h35, h32, h03.symm]
      · by_cases c2 : (bitmap[n] : Int) = ColumnClass
        · simp [c2, h25, h32.symm, h02.symm]
        · by_cases c5 : (bitmap[n] : Int) = ColumnNameserver
          · simp [c5, h05.symm, h35.symm, h25.symm]
          · simp [c0, c3, c2, c5]

/-- `Filter` once the arguments are bound: the error of `NewResolver` on the bound server,
or what follows from the one call of `Lookup` on the question built from the bound name,
type and class. -/
theorem resolverCursor_filter_eq (lib : DnsLib) (w : World) (fuel : Nat)
    (cur : ResolverCursor) (str : String) (values : List Value) (tr : List Event)
    (v : FilterVars)
    (hvars : ResolverCursor.Filter.loop (base64.StdEncoding.DecodeString str).1 0 values
      { server := "", domain := "", class_ := "IN", typ := "A" } = .ret v) :
    ResolverCursor.Filter lib w fuel cur str values tr =
      match NewResolver w v.server with
      | .error err => .ret ((cur, some err), tr)
      | .ok rslv =>
        match Resolver.Lookup w fuel rslv
            { Name := v.domain, Qtype := lib.StringToType v.typ,
              Qclass := lib.StringToClass v.class_ } tr with
        | .panic m => .panic m
        | .diverge => .diverge
        | .ret ((_, some err), _, tr1) => .ret ((cur, some err), tr1)
        | .ret ((none, none), _, _) => .panic "nil pointer dereference"
        | .ret ((some msg, none), _, tr1) =>
          .ret (({ ns := v.server, pos := 0
                   records := rr.tag "answer" msg.Answer ++ rr.tag "authority" msg.Ns
                     ++ rr.tag "extra" msg.Extra }, none), tr1) := by
  unfold ResolverCursor.Filter
  simp only [hvars, resolverCursor_foldl_eq, List.nil_append, rr.tag, List.append_assoc]


/-- **C18.** For a plan that decodes to the bytes `b` and as many arguments `values`: the
loop of `Filter` leaves in `domain`, `server`, `typ` and `class` the values bound to the
roles domain, nameserver, type and class (the text of the last argument with that role),
with "A" and "IN" for a type or class that no argument has; `Filter` then asks
`NewResolver` for the bound server and, when a resolver is returned, calls `Lookup` once,
on the question whose name is the bound domain, whose type is `StringToType` of the bound
type and whose class is `StringToClass` of the bound class: what `Filter` returns, trace
included, is determined by the result of that one call. -/
theorem resolverCursor_filter_question (lib : DnsLib) (w : World) (fuel : Nat)
    (cur : ResolverCursor) (str : String) (values : List Value) (tr : List Event)
    (b : List Nat) (hb : (base64.StdEncoding.DecodeString str).1 = b)
    (hlen : b.length = values.length) :
    ResolverCursor.Filter.loop b 0 values
        { server := "", domain := "", class_ := "IN", typ := "A" } =
      .ret { server := ResolverCursor.bound b values ColumnNameserver ""
             domain := ResolverCursor.bound b values ColumnDomain ""
             class_ := ResolverCursor.bound b values ColumnClass "IN"
             typ := ResolverCursor.bound b values ColumnType "A" } ∧
    ResolverCursor.Filter lib w fuel cur str values tr =
      match NewResolver w (ResolverCursor.bound b values ColumnNameserver "") with
      | .error err => .ret ((cur, some err), tr)
      | .ok rslv =>
        match Resolver.Lookup w fuel rslv
            { Name := ResolverCursor.bound b values ColumnDomain ""
              Qtype := lib.StringToType (ResolverCursor.bound b values ColumnType "A")
              Qclass := lib.StringToClass (ResolverCursor.bound b values ColumnClass "IN") }
            tr with
        | .panic m => .panic m
        | .diverge => .diverge
        | .ret ((_, some err), _, tr1) => .ret ((cur, some err), tr1)
        | .ret ((none, none), _, _) => .panic "nil pointer dereference"
        | .ret ((some msg, none), _, tr1) =>
          .ret (({ ns := ResolverCursor.bound b values ColumnNameserver "", pos := 0
                   records := rr.tag "answer" msg.Answer ++ rr.tag "authority" msg.Ns
                     ++ rr.tag "extra" msg.Extra }, none), tr1) := by
  have hloop := resolverCursor_loop_eq b values 0
    { server := "", domain := "", class_ := "IN", typ := "A" } (by omega)
  simp only [List.drop_zero] at hloop
  refine ⟨hloop, ?_⟩
  rw [resolverCursor_filter_eq lib w fuel cur str values tr _ (by rw [hb]; exact hloop)]

/-- Witness of C18: the plan `AAUDAA==` (domain, nameserver, type, domain) with four
arguments: the second domain wins, the type is AAAA (28), the class defaults to IN (1),
and the one exchange carries that question to the bound server. -/
theorem resolverCursor_filter_question_witness :
    base64.StdEncoding.DecodeString "AAUDAA==" = ([0, 5, 3, 0], false) ∧
    ResolverCursor.Filter (dns.lib (.ok exampleConfig)) (exampleWorld exampleAnswering) 1
        ResolverTable.Open "AAUDAA=="
        [{ Text := "first.example.", Int := 0 }, { Text := "udp://1.1.1.1:53", Int := 0 },
         { Text := "AAAA", Int := 0 }, { Text := "example.com.", Int := 0 }] [] =
      .ret ((exampleRows, none),
        [Event.Exchange exampleResolver.client
          (newQuery 0 { Name := "example.com.", Qtype := 28, Qclass := 1 }) "1.1.1.1:53"]) :=
  ⟨by decide,
    ((resolverCursor_filter_question (dns.lib (.ok exampleConfig))
      (exampleWorld exampleAnswering) 1 ResolverTable.Open "AAUDAA=="
      [{ Text := "first.example.", Int := 0 }, { Text := "udp://1.1.1.1:53", Int := 0 },
       { Text := "AAAA", Int := 0 }, { Text := "example.com.", Int := 0 }] []
      [0, 5, 3, 0] (by decide) (by decide)).2).trans (by decide)⟩


/-! ## The contract between `BestIndex` and `Filter` -/

/-- The byte written for an accepted constraint is its column index. -/
theorem accepted_byte (c : IndexConstraint) (h : ResolverTable.accepted c = true) :
    (byte c.ColumnIndex : Int) = c.ColumnIndex ∧ byte c.ColumnIndex < 256 := by
  simp only [ResolverTable.accepted, ResolverTable.constrained, Bool.and_eq_true,
    decide_eq_true_eq] at h
  rcases h.2 with h0 | h0 | h0 | h0 <;> rw [h0] <;> decide

/-- The argument positions handed out by the planning loop, read off the usage list in
constraint order, are `argv, argv + 1, ...`: one for each accepted constraint. -/
theorem usage_positions (cs : List IndexConstraint) :
    ∀ argv : Int,
      ((ResolverTable.usage argv cs).filterMap id).map (fun u => u.ArgvIndex) =
        (List.range (cs.filter ResolverTable.accepted).length).map (fun k : Nat => argv + k) := by
  induction cs with
  | nil => intro argv; simp [ResolverTable.usage]
  | cons c cs ih =>
    intro argv
    unfold ResolverTable.usage
    by_cases hc : ResolverTable.accepted c = true
    · simp only [hc, if_true, List.filterMap_cons, id_eq, List.map_cons, List.filter_cons,
        List.length_cons, List.range_succ_eq_map, List.map_map, ih (argv + 1)]
      simp only [Nat.cast_zero, add_zero, List.cons.injEq, true_and]
      apply List.map_congr_left
      intro k _
      simp only [Function.comp_apply, Nat.succ_eq_add_one, Nat.cast_add, Nat.cast_one]
      omega
    · simp only [hc, Bool.false_eq_true, if_false, List.filterMap_cons, id_eq, List.filter_cons,
        ih argv]

/-- The `k`-th element kept by a filter, for an element at index `i` that is kept: `k`
counts the elements kept before `i`. -/
theorem filter_getElem?_of_getElem? {α : Type} (p : α → Bool) (l : List α) :
    ∀ (i : Nat) (a : α), l[i]? = some a → p a = true →
      (l.filter p)[((l.take i).filter p).length]? = some a := by
  induction l with
  | nil => intro i a h; simp at h
  | cons x l ih =>
    intro i a h hp
    cases i with
    | zero =>
      simp only [List.getElem?_cons_zero, Option.some.injEq] at h
      subst h
      simp [List.filter_cons, hp]
    | succ i =>
      simp only [List.getElem?_cons_succ] at h
      have := ih i a h hp
      by_cases hx : p x = true
      · simp [List.filter_cons, hx, this]
      · simp [List.filter_cons, hx, this]

/-- A successful `BestIndex`: no operator was rejected, and the output holds the usage
entries and the encoded bytes of the accepted constraints. -/
theorem bestIndex_success (cs : List IndexConstraint) (out : IndexInfoOutput)
    (h : ResolverTable.BestIndex cs = (some out, none)) :
    (∀ c ∈ cs, ResolverTable.constrained c.ColumnIndex → c.Op = INDEX_CONSTRAINT_EQ) ∧
    out = { ConstraintUsage := ResolverTable.usage 1 cs
            IndexString := base64.StdEncoding.EncodeToString
              ((cs.filter ResolverTable.accepted).map (fun c => byte c.ColumnIndex)) } ∧
    cs.any (fun c => ResolverTable.accepted c && decide (c.ColumnIndex = ColumnDomain)) = true ∧
    cs.any (fun c => ResolverTable.accepted c && decide (c.ColumnIndex = ColumnNameserver)) = true := by
  by_cases hop : ∀ c ∈ cs, ResolverTable.constrained c.ColumnIndex → c.Op = INDEX_CONSTRAINT_EQ
  · rw [bestIndex_eq_of_pass cs hop] at h
    split_ifs at h with hreq
    · simp only [Prod.mk.injEq, Option.some.injEq, and_true] at h
      exact ⟨hop, h.symm, hreq.1, hreq.2⟩
    · simp at h
  · have hbad : ∃ c ∈ cs, ResolverTable.constrained c.ColumnIndex ∧ c.Op ≠ INDEX_CONSTRAINT_EQ := by
      push_neg at hop
      obtain ⟨c, hc, h1, h2⟩ := hop
      exact ⟨c, hc, h1, h2⟩
    rw [bestIndex_eq_of_reject cs hbad] at h
    simp at h

/-- **C19.** When `ResolverTable.BestIndex` succeeds, with `m` accepted constraints:
the argument positions in the usage list, in constraint order, are `1, 2, ..., m`;
decoding the returned `IndexString` gives, without error, the `m` bytes that are the
columns of the accepted constraints in order, so that the accepted constraint with
argument position `k + 1` has its column index as the `k`-th byte; and `Filter`, run on
that plan with `m` values, does not panic and leaves in each variable the value bound to
its role by these columns. -/
theorem resolverTable_plan_roundtrip (cs : List IndexConstraint) (out : IndexInfoOutput)
    (h : ResolverTable.BestIndex cs = (some out, none)) :
    (out.ConstraintUsage.filterMap id).map (fun u => u.ArgvIndex) =
      (List.range (cs.filter ResolverTable.accepted).length).map (fun k : Nat => (k : Int) + 1) ∧
    base64.StdEncoding.DecodeString out.IndexString =
      ((cs.filter ResolverTable.accepted).map (fun c => byte c.ColumnIndex), false) ∧
    (base64.StdEncoding.DecodeString out.IndexString).1.length =
      (cs.filter ResolverTable.accepted).length ∧
    (∀ (i : Nat) (c : IndexConstraint), cs[i]? = some c → ResolverTable.accepted c = true →
      ∃ k, k < (cs.filter ResolverTable.accepted).length ∧
        out.ConstraintUsage[i]? =
          some (some { ArgvIndex := (k : Int) + 1, Omit := decide (c.ColumnIndex = ColumnDomain) }) ∧
        (base64.StdEncoding.DecodeString out.IndexString).1[k]? = some (byte c.ColumnIndex) ∧
        (byte c.ColumnIndex : Int) = c.ColumnIndex) ∧
    (∀ values : List Value, values.length = (cs.filter ResolverTable.accepted).length →
      ResolverCursor.Filter.loop (base64.StdEncoding.DecodeString out.IndexString).1 0 values
          { server := "", domain := "", class_ := "IN", typ := "A" } =
        .ret { server := ResolverCursor.bound
                 ((cs.filter ResolverTable.accepted).map (fun c => byte c.ColumnIndex)) values
                 ColumnNameserver ""
               domain := ResolverCursor.bound
                 ((cs.filter ResolverTable.accepted).map (fun c => byte c.ColumnIndex)) values
                 ColumnDomain ""
               class_ := ResolverCursor.bound
                 ((cs.filter ResolverTable.accepted).map (fun c => byte c.ColumnIndex)) values
                 ColumnClass "IN"
               typ := ResolverCursor.bound
                 ((cs.filter ResolverTable.accepted).map (fun c => byte c.ColumnIndex)) values
                 ColumnType "A" }) := by
  obtain ⟨-, hout, -, -⟩ := bestIndex_success cs out h
  have hdec : base64.StdEncoding.DecodeString out.IndexString =
      ((cs.filter ResolverTable.accepted).map (fun c => byte c.ColumnIndex), false) := by
    rw [hout]
    apply base64_decodeString_encodeToString
    intro x hx
    obtain ⟨c, hc, rfl⟩ := List.mem_map.mp hx
    exact (accepted_byte c (List.mem_filter.mp hc).2).2
  refine ⟨?_, hdec, by rw [hdec]; simp, ?_, ?_⟩
  · rw [hout]
    simp only [usage_positions cs 1]
    apply List.map_congr_left
    intro k _
    omega
  · intro i c hi hacc
    have hk := filter_getElem?_of_getElem? ResolverTable.accepted cs i c hi hacc
    refine ⟨((cs.take i).filter ResolverTable.accepted).length, ?_, ?_, ?_, (accepted_byte c hacc).1⟩
    · exact (List.getElem?_eq_some.mp hk).1
    · rw [hout]
      simp only [usage_getElem? cs 1 i c hi, hacc, if_true]
      simp only [Option.some.injEq, ConstraintUsage.mk.injEq, and_true]
      omega
    · rw [hdec]
      simp only [List.getElem?_map, hk, Option.map_some']
  · intro values hlen
    rw [hdec]
    have hloop := resolverCursor_loop_eq
      ((cs.filter ResolverTable.accepted).map (fun c => byte c.ColumnIndex)) values 0
      { server := "", domain := "", class_ := "IN", typ := "A" } (by simp [hlen])
    simpa using hloop

/-- Witness of C19: two accepted constraints (domain, nameserver) among four give the
positions 1 and 2 and the plan `AAU=`, which decodes to the columns 0 and 5. -/
theorem resolverTable_plan_roundtrip_witness :
    ResolverTable.BestIndex exampleConstraints =
      (some { ConstraintUsage := [some { ArgvIndex := 1, Omit := true },
                some { ArgvIndex := 2, Omit := false }, none, none],
              IndexString := "AAU=" }, none) ∧
    base64.StdEncoding.DecodeString "AAU=" = ([0, 5], false) :=
  ⟨by decide,
    (resolverTable_plan_roundtrip exampleConstraints
      { ConstraintUsage := [some { ArgvIndex := 1, Omit := true },
          some { ArgvIndex := 2, Omit := false }, none, none],
        IndexString := "AAU=" } (by decide)).2.1⟩


/-! ## The name of the question -/

/-- When some argument has the role of column `col`, the value bound to that role is the
text of one of the arguments with that role. -/
theorem bound_of_role (b : List Nat) (values : List Value) (col : Int) (dflt : String)
    (k : Nat) (y : Nat) (hk : b[k]? = some y) (hy : (y : Int) = col) (hlt : k < values.length) :
    ∃ (j : Nat) (z : Nat) (x : Value), b[j]? = some z ∧ (z : Int) = col ∧ values[j]? = some x ∧
      ResolverCursor.bound b values col dflt = x.Text := by
  unfold ResolverCursor.bound
  have hmem : (y, values[k]) ∈ (b.zip values).filter (fun p => decide ((p.1 : Int) = col)) := by
    rw [List.mem_filter]
    refine ⟨?_, by simpa using hy⟩
    rw [List.mem_iff_getElem?]
    exact ⟨k, List.getElem?_zip_eq_some.mpr ⟨hk, List.getElem?_eq_getElem hlt⟩⟩
  cases hl : ((b.zip values).filter (fun p => decide ((p.1 : Int) = col))).getLast? with
  | none =>
    rw [List.getLast?_eq_none_iff] at hl
    rw [hl] at hmem
    simp at hmem
  | some p =>
    have hp := List.mem_of_getLast?_eq_some hl
    rw [List.mem_filter] at hp
    obtain ⟨j, hj⟩ := List.mem_iff_getElem?.mp hp.1
    rw [List.getElem?_zip_eq_some] at hj
    exact ⟨j, p.1, p.2, hj.1, by simpa using hp.2, hj.2, rfl⟩

/-- **C17 (amended).** For a plan returned by a successful `ResolverTable.BestIndex` and
as many values as it has accepted constraints, the name of the question that `Filter`
hands to `Lookup` is the text of a value bound to an accepted constraint on the domain
column, unchanged: `Filter` does not qualify it, so the name is fully qualified exactly
when that bound value is. -/
theorem resolverCursor_question_name (lib : DnsLib) (w : World) (fuel : Nat)
    (cur : ResolverCursor) (cs : List IndexConstraint) (out : IndexInfoOutput)
    (values : List Value) (tr : List Event)
    (h : ResolverTable.BestIndex cs = (some out, none))
    (hlen : values.length = (cs.filter ResolverTable.accepted).length) :
    ∃ (v : FilterVars) (k : Nat) (c : IndexConstraint) (x : Value),
      ResolverCursor.Filter.loop (base64.StdEncoding.DecodeString out.IndexString).1 0 values
        { server := "", domain := "", class_ := "IN", typ := "A" } = .ret v ∧
      (cs.filter ResolverTable.accepted)[k]? = some c ∧ c.ColumnIndex = ColumnDomain ∧
      values[k]? = some x ∧ v.domain = x.Text ∧
      (lib.IsFqdn v.domain = true ↔ lib.IsFqdn x.Text = true) ∧
      ResolverCursor.Filter lib w fuel cur out.IndexString values tr =
        match NewResolver w v.server with
        | .error err => .ret ((cur, some err), tr)
        | .ok rslv =>
          match Resolver.Lookup w fuel rslv
              { Name := x.Text, Qtype := lib.StringToType v.typ,
                Qclass := lib.StringToClass v.class_ } tr with
          | .panic m => .panic m
          | .diverge => .diverge
          | .ret ((_, some err), _, tr1) => .ret ((cur, some err), tr1)
          | .ret ((none, none), _, _) => .panic "nil pointer dereference"
          | .ret ((some msg, none), _, tr1) =>
            .ret (({ ns := v.server, pos := 0
                     records := rr.tag "answer" msg.Answer ++ rr.tag "authority" msg.Ns
                       ++ rr.tag "extra" msg.Extra }, none), tr1) := by
  obtain ⟨-, hout, hdom, -⟩ := bestIndex_success cs out h
  have hdec : (base64.StdEncoding.DecodeString out.IndexString).1 =
      (cs.filter ResolverTable.accepted).map (fun c => byte c.ColumnIndex) := by
    rw [hout]
    rw [base64_decodeString_encodeToString]
    intro x hx
    obtain ⟨c, hc, rfl⟩ := List.mem_map.mp hx
    exact (accepted_byte c (List.mem_filter.mp hc).2).2
  have hloop := resolverCursor_loop_eq
    ((cs.filter ResolverTable.accepted).map (fun c => byte c.ColumnIndex)) values 0
    { server := "", domain := "", class_ := "IN", typ := "A" } (by simp [hlen])
  simp only [List.drop_zero] at hloop
  -- an accepted constraint on the domain column, and its place among the accepted ones
  obtain ⟨c0, hc0, hacc0⟩ := List.any_eq_true.mp hdom
  simp only [Bool.and_eq_true, decide_eq_true_eq] at hacc0
  have hmem0 : c0 ∈ cs.filter ResolverTable.accepted := List.mem_filter.mpr ⟨hc0, hacc0.1⟩
  obtain ⟨k0, hk0⟩ := List.mem_iff_getElem?.mp hmem0
  have hk0lt : k0 < values.length := by
    rw [hlen]
    exact (List.getElem?_eq_some.mp hk0).1
  have hb0 : ((cs.filter ResolverTable.accepted).map (fun c => byte c.ColumnIndex))[k0]? =
      some (byte c0.ColumnIndex) := by
    simp only [List.getElem?_map, hk0, Option.map_some']
  obtain ⟨j, z, x, hj, hz, hx, hbound⟩ := bound_of_role _ values ColumnDomain "" k0
    (byte c0.ColumnIndex) hb0 (by rw [(accepted_byte c0 hacc0.1).1]; exact hacc0.2) hk0lt
  -- the constraint whose byte stands at index `j`
  simp only [List.getElem?_map] at hj
  cases hcj : (cs.filter ResolverTable.accepted)[j]? with
  | none => simp [hcj] at hj
  | some c =>
    simp only [hcj, Option.map_some', Option.some.injEq] at hj
    have haccj : ResolverTable.accepted c = true :=
      (List.mem_filter.mp (List.mem_iff_getElem?.mpr ⟨j, hcj⟩)).2
    have hcol : c.ColumnIndex = ColumnDomain := by
      rw [← (accepted_byte c haccj).1, hj]
      exact hz
    refine ⟨_, j, c, x, by rw [hdec]; exact hloop, hcj, hcol, hx, hbound, by rw [hbound], ?_⟩
    rw [resolverCursor_filter_eq lib w fuel cur out.IndexString values tr _
      (by rw [hdec]; exact hloop)]
    simp only [hbound]

/-- Witness of C17 (amended): the plan of domain and nameserver with the values
`example.com` and `udp://1.1.1.1:53`. -/
theorem resolverCursor_question_name_witness :
    ∃ (v : FilterVars) (k : Nat) (c : IndexConstraint) (x : Value),
      ResolverCursor.Filter.loop (base64.StdEncoding.DecodeString "AAU=").1 0
        [{ Text := "example.com", Int := 0 }, { Text := "udp://1.1.1.1:53", Int := 0 }]
        { server := "", domain := "", class_ := "IN", typ := "A" } = .ret v ∧
      (exampleConstraints.filter ResolverTable.accepted)[k]? = some c ∧
      c.ColumnIndex = ColumnDomain ∧
      ([{ Text := "example.com", Int := 0 }, { Text := "udp://1.1.1.1:53", Int := 0 }] :
        List Value)[k]? = some x ∧
      v.domain = x.Text ∧
      (dns.IsFqdn v.domain = true ↔ dns.IsFqdn x.Text = true) :=
  have ⟨v, k, c, x, h1, h2, h3, h4, h5, h6, _⟩ :=
    resolverCursor_question_name (dns.lib (.ok exampleConfig)) (exampleWorld exampleAnswering) 1
      ResolverTable.Open exampleConstraints
      { ConstraintUsage := [some { ArgvIndex := 1, Omit := true },
          some { ArgvIndex := 2, Omit := false }, none, none],
        IndexString := "AAU=" }
      [{ Text := "example.com", Int := 0 }, { Text := "udp://1.1.1.1:53", Int := 0 }] []
      (by decide) (by decide)
  ⟨v, k, c, x, h1, h2, h3, h4, h5, h6⟩

/-- **C17, counterexample.** The plan of an equality on domain and on nameserver is
`AAU=`; with the domain value `example.com` (no trailing dot) `Filter` sends the question
named `example.com` to the resolver, and that name is not fully qualified. -/
theorem resolverCursor_question_not_fqdn :
    ResolverTable.BestIndex exampleConstraints =
      (some { ConstraintUsage := [some { ArgvIndex := 1, Omit := true },
                some { ArgvIndex := 2, Omit := false }, none, none],
              IndexString := "AAU=" }, none) ∧
    ResolverCursor.Filter (dns.lib (.ok exampleConfig)) (exampleWorld exampleAnswering) 1
        ResolverTable.Open "AAU="
        [{ Text := "example.com", Int := 0 }, { Text := "udp://1.1.1.1:53", Int := 0 }] [] =
      .ret ((exampleRows, none),
        [Event.Exchange exampleResolver.client
          (newQuery 0 { Name := "example.com", Qtype := 1, Qclass := 1 }) "1.1.1.1:53"]) ∧
    dns.IsFqdn "example.com" = false := by
  refine ⟨?_, ?_, ?_⟩ <;> decide

end DnsSql
